import Mathlib

/-!
# Verification of the Blog-Nestjs wallet / withdrawal module

A shallow embedding of `src/wallet/wallet.service.ts` and
`src/wallet/services/paypal.service.ts`: persistent rows become lists of
records, each service method becomes a state transformer, and the external
PayPal client is an oracle supplying raw responses.  JavaScript peculiarities
that matter (string truthiness, `||` defaults, `toLowerCase` on the ASCII
range) are modelled explicitly.
-/

namespace BlogWallet

/-! ## JavaScript string helpers -/

/-- ASCII lower-casing of one character, as `toLowerCase` acts on the ASCII
range (the only range the status vocabulary uses). -/
def asciiLowerChar (c : Char) : Char :=
  if 65 ≤ c.toNat ∧ c.toNat ≤ 90 then Char.ofNat (c.toNat + 32) else c

/-- ASCII upper-casing of one character. -/
def asciiUpperChar (c : Char) : Char :=
  if 97 ≤ c.toNat ∧ c.toNat ≤ 122 then Char.ofNat (c.toNat - 32) else c

/-- JavaScript `String.prototype.toLowerCase` (ASCII fragment). -/
def strToLower (s : String) : String := ⟨s.data.map asciiLowerChar⟩

/-- JavaScript `String.prototype.toUpperCase` (ASCII fragment). -/
def strToUpper (s : String) : String := ⟨s.data.map asciiUpperChar⟩

/-- Truthiness of a nullable JavaScript string: `null`/`undefined` and the
empty string are falsy. -/
def strTruthy : Option String → Bool
  | none => false
  | some s => !(s == "")

/-- JavaScript `a || b` for a nullable string `a` and a string default `b`. -/
def jsOr (a : Option String) (b : String) : String :=
  match a with
  | none => b
  | some s => if s == "" then b else s

/-- A nullable string inside a JavaScript template literal: `undefined`
prints as the text `"undefined"`. -/
def jsInterp : Option String → String
  | none => "undefined"
  | some s => s

/-- Truthiness of a nullable JavaScript number: `null`/`undefined` and `0`
are falsy. -/
def intTruthy : Option Int → Bool
  | none => false
  | some n => !(n == 0)

/-! ## PayPal gateway adapter (`paypal.service.ts`) -/

/-- `normalizeTransactionStatus` (paypal.service.ts, lines 138-160).  A
missing status string is falsy in JavaScript, hence the `"UNKNOWN"` branch
also covers the empty string. -/
def normalizeTransactionStatus (status : Option String) : String :=
  match status with
  | none => "UNKNOWN"
  | some s =>
    if s == "" then "UNKNOWN"
    else
      let ns := strToLower s
      if ns == "success" || ns == "completed" || ns == "claimed" then "SUCCESS"
      else if ns == "failed" || ns == "returned" || ns == "refunded" || ns == "blocked" then
        "FAILED"
      else if ns == "pending" || ns == "unclaimed" then "PENDING"
      else strToUpper s

/-- One item of a raw PayPal batch-status response
(`response.result.items[i]`).  `errorsMessage` flattens `item.errors?.message`:
`none` when `errors` or `errors.message` is absent. -/
structure RawBatchItem where
  payout_item_id : String
  transaction_status : Option String
  errorsMessage : Option String
deriving DecidableEq, Repr

/-- The `batch_header` of a raw PayPal response. -/
structure RawBatchHeader where
  payout_batch_id : Option String
  batch_status : Option String
deriving DecidableEq, Repr

/-- A raw PayPal batch-status response (`response.result`). -/
structure RawBatchResponse where
  batch_header : Option RawBatchHeader
  items : List RawBatchItem
deriving DecidableEq, Repr

/-- An error thrown by the PayPal HTTP client (`error.statusCode`,
`error.message`). -/
structure ClientError where
  statusCode : Option Int
  message : Option String
deriving DecidableEq, Repr

/-- A batch item as `getPayoutStatus` returns it: the `...item` spread keeps
`payout_item_id` and `errors`, while `transaction_status` has been
normalized. -/
structure NormItem where
  payout_item_id : String
  transaction_status : String
  errorsMessage : Option String
deriving DecidableEq, Repr

/-- The per-item normalization performed inside `getPayoutStatus`
(paypal.service.ts, lines 113-119). -/
def normalizeItem (it : RawBatchItem) : NormItem :=
  { payout_item_id := it.payout_item_id
    transaction_status := normalizeTransactionStatus it.transaction_status
    errorsMessage := it.errorsMessage }

/-- The value `getPayoutStatus` returns to its callers. -/
structure BatchStatusResult where
  batchId : String
  status : String
  items : List NormItem
deriving DecidableEq, Repr

/-- `getPayoutStatus` (paypal.service.ts, lines 87-136), as a function of the
raw outcome of `client.execute`; a thrown client error is wrapped into a
`BadRequestException` message. -/
def getPayoutStatus (payoutBatchId : String)
    (clientResult : Except ClientError RawBatchResponse) :
    Except String BatchStatusResult :=
  match clientResult with
  | .ok r =>
    .ok { batchId := jsOr (r.batch_header.bind (fun h => h.payout_batch_id)) payoutBatchId
          status := jsOr (r.batch_header.bind (fun h => h.batch_status)) "UNKNOWN"
          items := r.items.map normalizeItem }
  | .error e =>
    if intTruthy e.statusCode then
      .error ("Failed to get payout status (" ++ toString ((e.statusCode).getD 0) ++ "): "
        ++ jsInterp e.message)
    else
      .error ("Failed to get payout status: " ++ jsOr e.message "Unknown error")

/-- A raw PayPal single-item response (`response.result` of
`PayoutsItemGetRequest`). -/
structure RawItemResponse where
  payout_item_id : Option String
  transaction_status : Option String
  errorsMessage : Option String
deriving DecidableEq, Repr

/-- The value `getPayoutItemStatus` returns to its callers (the unused
`amount`/`recipient` fields are omitted). -/
structure ItemStatusResult where
  itemId : Option String
  status : String
  errorsMessage : Option String
deriving DecidableEq, Repr

/-- `getPayoutItemStatus` (paypal.service.ts, lines 162-187). -/
def getPayoutItemStatus (clientResult : Except ClientError RawItemResponse) :
    Except String ItemStatusResult :=
  match clientResult with
  | .ok r =>
    .ok { itemId := r.payout_item_id
          status := normalizeTransactionStatus r.transaction_status
          errorsMessage := r.errorsMessage }
  | .error e =>
    .error ("Failed to get payout item status: " ++ jsOr e.message "Unknown error")

/-- One item of a raw payout-submission response. -/
structure RawSendItem where
  payout_item_id : Option String
deriving DecidableEq, Repr

/-- A raw payout-submission response (`response.result`). -/
structure RawSendResponse where
  batch_header : Option RawBatchHeader
  items : List RawSendItem
deriving DecidableEq, Repr

/-- The value `sendPayout` returns to its callers. -/
structure PayoutResult where
  batchId : Option String
  status : Option String
  payoutItemId : Option String
deriving DecidableEq, Repr

/-- `sendPayout` (paypal.service.ts, lines 10-85), as a function of the raw
outcome of `client.execute`; `.ok none` models a response whose `result` is
missing, which (like a missing `batch_header`) is turned into the
`Invalid PayPal response structure` error and then wrapped by the `catch`. -/
def sendPayout (clientResult : Except ClientError (Option RawSendResponse)) :
    Except String PayoutResult :=
  match clientResult with
  | .ok res =>
    match res with
    | none => .error "PayPal payout failed: Invalid PayPal response structure"
    | some r =>
      match r.batch_header with
      | none => .error "PayPal payout failed: Invalid PayPal response structure"
      | some h =>
        .ok { batchId := h.payout_batch_id
              status := h.batch_status
              payoutItemId := (r.items.head?).bind (fun it => it.payout_item_id) }
  | .error e =>
    if intTruthy e.statusCode then
      .error ("PayPal payout failed (" ++ toString ((e.statusCode).getD 0) ++ "): "
        ++ jsInterp e.message)
    else
      .error ("PayPal payout failed: " ++ jsOr e.message "Unknown error")

/-! ## Wallet ledger (`wallet.service.ts`) -/

/-- Withdrawal lifecycle status, the four status strings stored on withdrawal
rows. -/
inductive WStatus where
  | PENDING
  | PROCESSING
  | COMPLETED
  | FAILED
deriving DecidableEq, Repr

/-- A wallet row (`wallet.entity`): keyed by `creatorId` (unique). -/
structure Wallet where
  creatorId : String
  balance : Int
  paypalEmail : Option String
  paypalVerified : Bool
deriving DecidableEq, Repr

/-- A withdrawal row (`withdrawals.entity`): keyed by a generated `id`. -/
structure Withdrawal where
  id : String
  creatorId : String
  amount : Int
  status : WStatus
  paypalEmail : String
  paypalBatchId : Option String
  paypalPayoutItemId : Option String
  failureReason : Option String
deriving DecidableEq, Repr

/-- The persistent rows the wallet service reads and writes: the wallet and
withdrawal repositories. -/
structure LedgerState where
  wallets : List Wallet
  withdrawals : List Withdrawal
deriving DecidableEq, Repr

/-- The state with no rows. -/
def emptyLedger : LedgerState := { wallets := [], withdrawals := [] }

/-- `walletRepository.findOne({ where: { creatorId } })`. -/
def findWallet (st : LedgerState) (creatorId : String) : Option Wallet :=
  st.wallets.find? (fun w => w.creatorId == creatorId)

/-- `walletRepository.save`: update the row keyed by `creatorId`, insert when
absent. -/
def saveWallet (st : LedgerState) (w : Wallet) : LedgerState :=
  if st.wallets.any (fun x => x.creatorId == w.creatorId) then
    { st with wallets := st.wallets.map (fun x => if x.creatorId == w.creatorId then w else x) }
  else
    { st with wallets := st.wallets ++ [w] }

/-- `withdrawalRepository.findOne({ where: { id } })`. -/
def findWithdrawal (st : LedgerState) (id : String) : Option Withdrawal :=
  st.withdrawals.find? (fun w => w.id == id)

/-- `withdrawalRepository.save`: update the row keyed by `id`, insert when
absent. -/
def saveWithdrawal (st : LedgerState) (w : Withdrawal) : LedgerState :=
  if st.withdrawals.any (fun x => x.id == w.id) then
    { st with withdrawals := st.withdrawals.map (fun x => if x.id == w.id then w else x) }
  else
    { st with withdrawals := st.withdrawals ++ [w] }

/-- `createWallet` (wallet.service.ts, lines 25-33). -/
def createWallet (st : LedgerState) (creatorId : String) :
    LedgerState × Except String Wallet :=
  match findWallet st creatorId with
  | some _ => (st, .error "Wallet already exists for this creator.")
  | none =>
    let w : Wallet :=
      { creatorId := creatorId, balance := 0, paypalEmail := none, paypalVerified := false }
    (saveWallet st w, .ok w)

/-- `linkPayPal` (wallet.service.ts, lines 43-54). -/
def linkPayPal (st : LedgerState) (creatorId paypalEmail : String) :
    LedgerState × Except String Wallet :=
  match findWallet st creatorId with
  | none => (st, .error "Wallet not found")
  | some w =>
    let w2 := { w with paypalEmail := some paypalEmail, paypalVerified := true }
    (saveWallet st w2, .ok w2)

/-- `requestWithdrawal` (wallet.service.ts, lines 56-120).  `clientResult` is
the raw outcome of the PayPal client call made inside
`paypalService.sendPayout`; `newId` is the row id the database generates for
the created withdrawal.  Returns the state after every persisted write
together with the surfaced result (`.error` being a thrown
`BadRequestException`). -/
def requestWithdrawal (st : LedgerState) (creatorId : String) (amount : Int)
    (newId : String) (clientResult : Except ClientError (Option RawSendResponse)) :
    LedgerState × Except String Withdrawal :=
  if amount ≤ 0 then (st, .error "Invalid withdrawal amount")
  else if amount < 5 then (st, .error "Minimum withdrawal amount is $5")
  else
    match findWallet st creatorId with
    | none => (st, .error "Wallet not found")
    | some wallet =>
      if !(strTruthy wallet.paypalEmail) then
        (st, .error "Please link your PayPal account first")
      else if amount > wallet.balance then
        (st, .error "Insufficient balance")
      else
        let withdrawal : Withdrawal :=
          { id := newId, creatorId := creatorId, amount := amount, status := .PENDING
            paypalEmail := (wallet.paypalEmail).getD "", paypalBatchId := none
            paypalPayoutItemId := none, failureReason := none }
        let wallet1 := { wallet with balance := wallet.balance - amount }
        let st1 := saveWithdrawal (saveWallet st wallet1) withdrawal
        match sendPayout clientResult with
        | .ok payoutResult =>
          let w2 := { withdrawal with
                      paypalBatchId := payoutResult.batchId
                      paypalPayoutItemId := payoutResult.payoutItemId
                      status := .PROCESSING }
          (saveWithdrawal st1 w2, .ok w2)
        | .error e =>
          let wallet2 := { wallet1 with balance := wallet1.balance + amount }
          let st2 := saveWallet st1 wallet2
          let w2 := { withdrawal with status := .FAILED, failureReason := some e }
          (saveWithdrawal st2 w2, .error ("Withdrawal failed: " ++ e))

/-- `refundToWallet` (wallet.service.ts, lines 220-230): silently does
nothing when no wallet row exists for the withdrawal's creator. -/
def refundToWallet (st : LedgerState) (withdrawal : Withdrawal) : LedgerState :=
  match findWallet st withdrawal.creatorId with
  | some wallet => saveWallet st { wallet with balance := wallet.balance + withdrawal.amount }
  | none => st

/-- `updateWithdrawalFromItem` (wallet.service.ts, lines 199-218).  Returns
the mutated in-memory withdrawal entity together with the state after the
writes. -/
def updateWithdrawalFromItem (st : LedgerState) (withdrawal : Withdrawal)
    (item : NormItem) : Withdrawal × LedgerState :=
  let status := strToLower item.transaction_status
  if status == "success" || status == "completed" || status == "claimed" then
    let w2 := { withdrawal with status := .COMPLETED }
    (w2, saveWithdrawal st w2)
  else if status == "failed" || status == "returned" || status == "refunded"
      || status == "blocked" then
    let w2 := { withdrawal with
                status := .FAILED
                failureReason := some (jsOr item.errorsMessage ("PayPal transaction " ++ status)) }
    (w2, saveWithdrawal (refundToWallet st w2) w2)
  else
    (withdrawal, st)

/-- The item-matching loop of `updateWithdrawalStatuses` (wallet.service.ts,
lines 152-165): take the first item whose `payout_item_id` equals the stored
item id, or — when no item id is stored — the sole item of a one-item
batch. -/
def matchItem (withdrawal : Withdrawal) (items : List NormItem) : Option NormItem :=
  items.find? (fun item =>
    if strTruthy withdrawal.paypalPayoutItemId then
      item.payout_item_id == (withdrawal.paypalPayoutItemId).getD ""
    else
      items.length == 1)

/-- Lines 150-166 of `updateWithdrawalStatuses`: apply the matching batch
item, when the batch has items and one matches, to the withdrawal. -/
def reconcileFromBatch (st : LedgerState) (withdrawal : Withdrawal)
    (items : List NormItem) : Withdrawal × LedgerState :=
  if items.length > 0 then
    match matchItem withdrawal items with
    | some item => updateWithdrawalFromItem st withdrawal item
    | none => (withdrawal, st)
  else
    (withdrawal, st)

/-- The external PayPal client as seen during reconciliation: the raw
responses of the two status endpoints, keyed by batch id / item id. -/
structure PayPalClient where
  batchResult : String → Except ClientError RawBatchResponse
  itemResult : String → Except ClientError RawItemResponse

/-- The body of the per-withdrawal `try` block of `updateWithdrawalStatuses`
(wallet.service.ts, lines 142-189), for a withdrawal whose `paypalBatchId`
is set.  An `.error` is an exception escaping to the per-withdrawal `catch`;
the inner item-status call has its own `catch`, so its failure is absorbed. -/
def processOneWithdrawal (client : PayPalClient) (st : LedgerState)
    (withdrawal : Withdrawal) : Except String LedgerState :=
  match getPayoutStatus ((withdrawal.paypalBatchId).getD "")
      (client.batchResult ((withdrawal.paypalBatchId).getD "")) with
  | .error e => .error e
  | .ok payoutStatus =>
    let p := reconcileFromBatch st withdrawal payoutStatus.items
    let w1 := p.1
    let st1 := p.2
    if strTruthy w1.paypalPayoutItemId && w1.status == WStatus.PROCESSING then
      match getPayoutItemStatus (client.itemResult ((w1.paypalPayoutItemId).getD "")) with
      | .error _ => .ok st1
      | .ok itemStatus =>
        if itemStatus.status == "SUCCESS" then
          let w2 := { w1 with status := .COMPLETED }
          .ok (saveWithdrawal st1 w2)
        else if itemStatus.status == "FAILED" then
          let w2 := { w1 with
                      status := .FAILED
                      failureReason := some (jsOr itemStatus.errorsMessage "PayPal transaction failed") }
          .ok (saveWithdrawal (refundToWallet st1 w2) w2)
        else
          .ok st1
    else
      .ok st1

/-- One iteration of the scan loop of `updateWithdrawalStatuses` (lines
140-193): skip when no batch id is recorded, and catch any exception from the
processing body, leaving the state as it was. -/
def tickStep (client : PayPalClient) (st : LedgerState) (withdrawal : Withdrawal) :
    LedgerState :=
  if strTruthy withdrawal.paypalBatchId then
    match processOneWithdrawal client st withdrawal with
    | .ok st2 => st2
    | .error _ => st
  else
    st

/-- `updateWithdrawalStatuses` (wallet.service.ts, lines 130-197): one
scheduled reconciliation tick, scanning the withdrawals that were in
`PROCESSING` when the tick started. -/
def updateWithdrawalStatuses (client : PayPalClient) (st : LedgerState) : LedgerState :=
  (st.withdrawals.filter (fun w => w.status == WStatus.PROCESSING)).foldl
    (tickStep client) st

/-- The value `forceCheckWithdrawal` returns when it does not throw. -/
inductive ForceCheckOutcome where
  | notProcessing
  | checked (withdrawal : Withdrawal)
deriving DecidableEq, Repr

/-- `forceCheckWithdrawal` (wallet.service.ts, lines 232-261). -/
def forceCheckWithdrawal (client : PayPalClient) (st : LedgerState)
    (withdrawalId : String) : LedgerState × Except String ForceCheckOutcome :=
  match findWithdrawal st withdrawalId with
  | none => (st, .error "Withdrawal not found")
  | some withdrawal =>
    if withdrawal.status ≠ .PROCESSING then
      (st, .ok .notProcessing)
    else if !(strTruthy withdrawal.paypalBatchId) then
      (st, .error "No PayPal batch ID found")
    else
      match getPayoutStatus ((withdrawal.paypalBatchId).getD "")
          (client.batchResult ((withdrawal.paypalBatchId).getD "")) with
      | .error e => (st, .error ("Failed to check withdrawal status: " ++ e))
      | .ok payoutStatus =>
        match payoutStatus.items.head? with
        | some item =>
          let p := updateWithdrawalFromItem st withdrawal item
          (p.2, .ok (.checked p.1))
        | none => (st, .ok (.checked withdrawal))

/-- Modelled from the spec: the earning flow that credits wallets (spec
section 3, "Mutated by debit (withdrawal request) and credit"; section 8,
"sum(credits)") is not among the provided source files.  A deposit credits
the existing wallet's balance and does nothing for a creator without a
wallet. -/
def deposit (st : LedgerState) (creatorId : String) (amount : Int) : LedgerState :=
  match findWallet st creatorId with
  | some wallet => saveWallet st { wallet with balance := wallet.balance + amount }
  | none => st

/-! ## Operation traces -/

/-- One externally triggered wallet operation, carrying the environment's
responses (database-generated row ids and raw PayPal client outcomes). -/
inductive Op where
  | createWallet (creatorId : String)
  | linkPayPal (creatorId paypalEmail : String)
  | deposit (creatorId : String) (amount : Int)
  | requestWithdrawal (creatorId : String) (amount : Int) (newId : String)
      (clientResult : Except ClientError (Option RawSendResponse))
  | tick (client : PayPalClient)
  | forceCheck (client : PayPalClient) (withdrawalId : String)

/-- The state after one operation (results surfaced to callers are
dropped). -/
def applyOp (st : LedgerState) : Op → LedgerState
  | .createWallet creatorId => (createWallet st creatorId).1
  | .linkPayPal creatorId email => (linkPayPal st creatorId email).1
  | .deposit creatorId amount => deposit st creatorId amount
  | .requestWithdrawal creatorId amount newId clientResult =>
      (requestWithdrawal st creatorId amount newId clientResult).1
  | .tick client => updateWithdrawalStatuses client st
  | .forceCheck client withdrawalId => (forceCheckWithdrawal client st withdrawalId).1

/-- Run a trace of operations from the empty state. -/
def runOps (ops : List Op) : LedgerState := ops.foldl applyOp emptyLedger

/-- The database generates fresh primary keys: an operation is admissible in
a state when, if it is a `requestWithdrawal`, its generated row id is
unused. -/
def opFresh (st : LedgerState) : Op → Bool
  | .requestWithdrawal _ _ newId _ => st.withdrawals.all (fun w => !(w.id == newId))
  | _ => true

/-- Admissibility of a whole trace. -/
def opsFresh : LedgerState → List Op → Bool
  | _, [] => true
  | st, op :: rest => opFresh st op && opsFresh (applyOp st op) rest

/-- The amount the given operation deposits into the wallet of `creatorId`
when applied in state `st` (zero for every operation except an effective
`deposit`). -/
def opDeposit (st : LedgerState) (op : Op) (creatorId : String) : Int :=
  match op with
  | .deposit c a => if c == creatorId && (findWallet st c).isSome then a else 0
  | _ => 0

/-- Total amount deposited into the wallet of `creatorId` along a trace. -/
def depositsOf : LedgerState → List Op → String → Int
  | _, [], _ => 0
  | st, op :: rest, cid => opDeposit st op cid + depositsOf (applyOp st op) rest cid

/-! ## The balance invariant -/

/-- Whether a withdrawal status is one of `PENDING`, `PROCESSING`,
`COMPLETED` — the statuses whose amount has left the balance and has not
been credited back. -/
def countsAgainstBalance (s : WStatus) : Bool :=
  s == .PENDING || s == .PROCESSING || s == .COMPLETED

/-- The amount a single withdrawal row holds away from the balance of
`creatorId`. -/
def withdrawnContribution (w : Withdrawal) (creatorId : String) : Int :=
  if w.creatorId == creatorId && countsAgainstBalance w.status then w.amount else 0

/-- Sum of the amounts of the withdrawals of `creatorId` whose status is in
`{PENDING, PROCESSING, COMPLETED}`. -/
def outstanding (l : List Withdrawal) (creatorId : String) : Int :=
  (l.map (fun w => withdrawnContribution w creatorId)).sum

/-- Uniqueness of the wallet rows' key. -/
def walletKeysNodup (st : LedgerState) : Prop :=
  (st.wallets.map (fun w => w.creatorId)).Nodup

/-- Uniqueness of the withdrawal rows' key. -/
def withdrawalIdsNodup (st : LedgerState) : Prop :=
  (st.withdrawals.map (fun w => w.id)).Nodup

/-- The inductive invariant behind claim C1: every wallet's balance is its
total deposits minus its outstanding withdrawals, creators without a wallet
have no deposits and no non-FAILED withdrawal, and row keys are unique. -/
structure LedgerInv (st : LedgerState) (dep : String → Int) : Prop where
  balance_eq : ∀ w ∈ st.wallets,
    w.balance = dep w.creatorId - outstanding st.withdrawals w.creatorId
  no_wallet_dep : ∀ cid, findWallet st cid = none → dep cid = 0
  no_wallet_wd : ∀ wd ∈ st.withdrawals, wd.status ≠ .FAILED →
    (findWallet st wd.creatorId).isSome = true
  wkeys : walletKeysNodup st
  wids : withdrawalIdsNodup st

/-! ## List-level helper lemmas

`saveWallet` / `saveWithdrawal` both update the first (and, under key
uniqueness, the only) row with a matching key; these lemmas describe that
map-update generically over a key function `key` and a key value `k`. -/

theorem map_update_eq_self {α : Type} (key : α → String) (l : List α) (a : α)
    (k : String) (h : ∀ x ∈ l, (key x == k) = false) :
    l.map (fun x => if key x == k then a else x) = l := by
  induction l with
  | nil => rfl
  | cons y t ih =>
    have hy := h y (List.mem_cons_self y t)
    simp only [List.map_cons, hy, Bool.false_eq_true, if_false, List.cons.injEq, true_and]
    exact ih (fun x hx => h x (List.mem_cons_of_mem y hx))

theorem keys_map_update {α : Type} (key : α → String) (l : List α) (a : α)
    (k : String) (hk : key a = k) :
    (l.map (fun x => if key x == k then a else x)).map key = l.map key := by
  induction l with
  | nil => rfl
  | cons y t ih =>
    simp only [List.map_cons, List.cons.injEq]
    refine ⟨?_, ih⟩
    by_cases hy : (key y == k) = true
    · simp only [hy, if_true, hk]
      exact ((beq_iff_eq).mp hy).symm
    · simp only [Bool.not_eq_true] at hy
      simp [hy]

theorem find?_map_update_self {α : Type} (key : α → String) (l : List α) (a : α)
    (k : String) (hk : key a = k) :
    (l.map (fun x => if key x == k then a else x)).find? (fun x => key x == k)
      = if l.any (fun x => key x == k) then some a else none := by
  induction l with
  | nil => rfl
  | cons y t ih =>
    simp only [List.map_cons, List.any_cons]
    by_cases hy : (key y == k) = true
    · simp [hy, List.find?_cons, hk]
    · simp only [Bool.not_eq_true] at hy
      simp only [hy, Bool.false_eq_true, if_false, Bool.false_or, List.find?_cons]
      exact ih

theorem find?_map_update_other {α : Type} (key : α → String) (l : List α) (a : α)
    (k c : String) (hk : key a = k) (hc : (k == c) = false) :
    (l.map (fun x => if key x == k then a else x)).find? (fun x => key x == c)
      = l.find? (fun x => key x == c) := by
  induction l with
  | nil => rfl
  | cons y t ih =>
    simp only [List.map_cons]
    by_cases hy : (key y == k) = true
    · have hyc : (key y == c) = false := by
        rw [(beq_iff_eq).mp hy]; exact hc
      have hac : (key a == c) = false := by rw [hk]; exact hc
      simp only [hy, if_true, List.find?_cons, hac, hyc]
      exact ih
    · simp only [Bool.not_eq_true] at hy
      simp only [hy, Bool.false_eq_true, if_false, List.find?_cons]
      cases hyc : (key y == c) with
      | true => rfl
      | false => exact ih

theorem mem_map_update {α : Type} (key : α → String) (l : List α) (a x : α)
    (k : String)
    (hx : x ∈ l.map (fun y => if key y == k then a else y)) :
    x = a ∨ (x ∈ l ∧ (key x == k) = false) := by
  rcases List.mem_map.mp hx with ⟨y, hy, hxy⟩
  by_cases h : (key y == k) = true
  · left; rw [← hxy]; simp [h]
  · right
    simp only [Bool.not_eq_true] at h
    rw [← hxy]
    simp [h, hy]

theorem find?_eq_of_mem_nodup {α : Type} (key : α → String) (l : List α) (x : α)
    (hnd : (l.map key).Nodup) (hx : x ∈ l) :
    l.find? (fun y => key y == key x) = some x := by
  induction l with
  | nil => cases hx
  | cons y t ih =>
    rcases List.mem_cons.mp hx with rfl | hx2
    · exact List.find?_cons_of_pos _ (by simp)
    · have hne : (key y == key x) = false := by
        simp only [List.map_cons, List.nodup_cons] at hnd
        have hmem : key x ∈ t.map key := List.mem_map.mpr ⟨x, hx2, rfl⟩
        by_contra hcon
        simp only [Bool.not_eq_false, beq_iff_eq] at hcon
        exact hnd.1 (hcon ▸ hmem)
      rw [List.find?_cons_of_neg _ (by simp only [hne]; exact Bool.false_ne_true)]
      simp only [List.map_cons, List.nodup_cons] at hnd
      exact ih hnd.2 hx2

theorem sum_map_update (l : List Withdrawal) (w0 w2 : Withdrawal)
    (g : Withdrawal → Int) (h0 : w0 ∈ l)
    (hnd : (l.map (fun w => w.id)).Nodup) (hid : w2.id = w0.id) :
    ((l.map (fun x => if x.id == w2.id then w2 else x)).map g).sum
      = (l.map g).sum - g w0 + g w2 := by
  induction l with
  | nil => cases h0
  | cons y t ih =>
    simp only [List.map_cons, List.nodup_cons] at hnd
    rcases List.mem_cons.mp h0 with rfl | h0t
    · have heq : (w0.id == w2.id) = true := by simp [hid]
      have ht : t.map (fun x => if x.id == w2.id then w2 else x) = t := by
        refine map_update_eq_self (fun (w : Withdrawal) => w.id) t w2 w2.id ?_
        intro x hx
        by_contra hcon
        simp only [Bool.not_eq_false, beq_iff_eq] at hcon
        exact hnd.1 (by rw [← hid, ← hcon]; exact List.mem_map.mpr ⟨x, hx, rfl⟩)
      simp only [List.map_cons, heq, if_true, ht, List.sum_cons]
      ring
    · have hne : (y.id == w2.id) = false := by
        by_contra hcon
        simp only [Bool.not_eq_false, beq_iff_eq] at hcon
        rw [hid] at hcon
        exact hnd.1 (hcon ▸ List.mem_map.mpr ⟨w0, h0t, rfl⟩)
      simp only [List.map_cons, hne, Bool.false_eq_true, if_false, List.sum_cons]
      rw [ih h0t hnd.2]
      ring

/-! ## Repository lemmas -/

theorem saveWallet_withdrawals (st : LedgerState) (w : Wallet) :
    (saveWallet st w).withdrawals = st.withdrawals := by
  unfold saveWallet; split <;> rfl

theorem saveWithdrawal_wallets (st : LedgerState) (w : Withdrawal) :
    (saveWithdrawal st w).wallets = st.wallets := by
  unfold saveWithdrawal; split <;> rfl

theorem refundToWallet_withdrawals (st : LedgerState) (w : Withdrawal) :
    (refundToWallet st w).withdrawals = st.withdrawals := by
  unfold refundToWallet
  split
  · rw [saveWallet_withdrawals]
  · rfl

theorem findWallet_saveWallet (st : LedgerState) (w : Wallet) (cid : String) :
    findWallet (saveWallet st w) cid
      = if cid = w.creatorId then some w else findWallet st cid := by
  unfold findWallet saveWallet
  by_cases hex : st.wallets.any (fun x => x.creatorId == w.creatorId) = true
  · simp only [hex, if_true]
    by_cases hc : cid = w.creatorId
    · subst hc
      rw [if_pos rfl,
        find?_map_update_self (fun (x : Wallet) => x.creatorId) st.wallets w w.creatorId rfl]
      simp [hex]
    · have hwc : (w.creatorId == cid) = false := by
        rw [beq_eq_false_iff_ne]; exact fun h => hc h.symm
      rw [if_neg hc]
      exact find?_map_update_other (fun (x : Wallet) => x.creatorId) st.wallets w
        w.creatorId cid rfl hwc
  · simp only [Bool.not_eq_true] at hex
    simp only [hex, Bool.false_eq_true, if_false]
    by_cases hc : cid = w.creatorId
    · subst hc
      have hnone : st.wallets.find? (fun x => x.creatorId == w.creatorId) = none := by
        rw [List.find?_eq_none]
        intro x hx
        simp [List.any_eq_false.mp hex x hx]
      rw [if_pos rfl, List.find?_append, hnone]
      simp [List.find?_cons]
    · have hwc : (w.creatorId == cid) = false := by
        rw [beq_eq_false_iff_ne]; exact fun h => hc h.symm
      rw [if_neg hc, List.find?_append]
      simp [List.find?_cons, hwc]

theorem findWithdrawal_saveWithdrawal (st : LedgerState) (w : Withdrawal) (i : String) :
    findWithdrawal (saveWithdrawal st w) i
      = if i = w.id then some w else findWithdrawal st i := by
  unfold findWithdrawal saveWithdrawal
  by_cases hex : st.withdrawals.any (fun x => x.id == w.id) = true
  · simp only [hex, if_true]
    by_cases hc : i = w.id
    · subst hc
      rw [if_pos rfl,
        find?_map_update_self (fun (x : Withdrawal) => x.id) st.withdrawals w w.id rfl]
      simp [hex]
    · have hwc : (w.id == i) = false := by
        rw [beq_eq_false_iff_ne]; exact fun h => hc h.symm
      rw [if_neg hc]
      exact find?_map_update_other (fun (x : Withdrawal) => x.id) st.withdrawals w
        w.id i rfl hwc
  · simp only [Bool.not_eq_true] at hex
    simp only [hex, Bool.false_eq_true, if_false]
    by_cases hc : i = w.id
    · subst hc
      have hnone : st.withdrawals.find? (fun x => x.id == w.id) = none := by
        rw [List.find?_eq_none]
        intro x hx
        simp [List.any_eq_false.mp hex x hx]
      rw [if_pos rfl, List.find?_append, hnone]
      simp [List.find?_cons]
    · have hwc : (w.id == i) = false := by
        rw [beq_eq_false_iff_ne]; exact fun h => hc h.symm
      rw [if_neg hc, List.find?_append]
      simp [List.find?_cons, hwc]

theorem findWallet_of_wallets_eq {st st2 : LedgerState}
    (h : st2.wallets = st.wallets) (cid : String) :
    findWallet st2 cid = findWallet st cid := by
  unfold findWallet; rw [h]

theorem findWithdrawal_of_withdrawals_eq {st st2 : LedgerState}
    (h : st2.withdrawals = st.withdrawals) (i : String) :
    findWithdrawal st2 i = findWithdrawal st i := by
  unfold findWithdrawal; rw [h]

theorem findWallet_mem {st : LedgerState} {cid : String} {w : Wallet}
    (h : findWallet st cid = some w) : w ∈ st.wallets ∧ w.creatorId = cid := by
  unfold findWallet at h
  have hp := List.find?_some h
  simp only [beq_iff_eq] at hp
  exact ⟨List.mem_of_find?_eq_some h, hp⟩

theorem findWithdrawal_mem {st : LedgerState} {i : String} {w : Withdrawal}
    (h : findWithdrawal st i = some w) : w ∈ st.withdrawals ∧ w.id = i := by
  unfold findWithdrawal at h
  have hp := List.find?_some h
  simp only [beq_iff_eq] at hp
  exact ⟨List.mem_of_find?_eq_some h, hp⟩

theorem findWithdrawal_of_mem {st : LedgerState} {w : Withdrawal}
    (hnd : withdrawalIdsNodup st) (hmem : w ∈ st.withdrawals) :
    findWithdrawal st w.id = some w := by
  unfold withdrawalIdsNodup at hnd
  unfold findWithdrawal
  exact find?_eq_of_mem_nodup (fun (x : Withdrawal) => x.id) st.withdrawals w hnd hmem

theorem saveWallet_keys_nodup {st : LedgerState} (w : Wallet)
    (h : walletKeysNodup st) : walletKeysNodup (saveWallet st w) := by
  unfold walletKeysNodup saveWallet at *
  by_cases hex : st.wallets.any (fun x => x.creatorId == w.creatorId) = true
  · simp only [hex, if_true]
    rw [keys_map_update (fun (x : Wallet) => x.creatorId) st.wallets w w.creatorId rfl]
    exact h
  · simp only [Bool.not_eq_true] at hex
    simp only [hex, Bool.false_eq_true, if_false]
    rw [← List.concat_eq_append, List.map_concat]
    apply List.Nodup.concat ?_ h
    intro hmem
    rcases List.mem_map.mp hmem with ⟨x, hx, hkey⟩
    have := List.any_eq_false.mp hex x hx
    simp [hkey] at this

theorem saveWithdrawal_ids_nodup {st : LedgerState} (w : Withdrawal)
    (h : withdrawalIdsNodup st) : withdrawalIdsNodup (saveWithdrawal st w) := by
  unfold withdrawalIdsNodup saveWithdrawal at *
  by_cases hex : st.withdrawals.any (fun x => x.id == w.id) = true
  · simp only [hex, if_true]
    rw [keys_map_update (fun (x : Withdrawal) => x.id) st.withdrawals w w.id rfl]
    exact h
  · simp only [Bool.not_eq_true] at hex
    simp only [hex, Bool.false_eq_true, if_false]
    rw [← List.concat_eq_append, List.map_concat]
    apply List.Nodup.concat ?_ h
    intro hmem
    rcases List.mem_map.mp hmem with ⟨x, hx, hkey⟩
    have := List.any_eq_false.mp hex x hx
    simp [hkey] at this

theorem mem_saveWallet_cases {st : LedgerState} {w x : Wallet}
    (hx : x ∈ (saveWallet st w).wallets) :
    x = w ∨ (x ∈ st.wallets ∧ (x.creatorId == w.creatorId) = false) := by
  unfold saveWallet at hx
  by_cases hex : st.wallets.any (fun y => y.creatorId == w.creatorId) = true
  · simp only [hex, if_true] at hx
    exact mem_map_update (fun (y : Wallet) => y.creatorId) st.wallets w x w.creatorId hx
  · simp only [Bool.not_eq_true] at hex
    simp only [hex, Bool.false_eq_true, if_false] at hx
    rcases List.mem_append.mp hx with hmem | hmem
    · refine Or.inr ⟨hmem, ?_⟩
      have hb := List.any_eq_false.mp hex x hmem
      simpa using hb
    · left; simpa using hmem

theorem mem_saveWithdrawal_cases {st : LedgerState} {w x : Withdrawal}
    (hx : x ∈ (saveWithdrawal st w).withdrawals) :
    x = w ∨ (x ∈ st.withdrawals ∧ (x.id == w.id) = false) := by
  unfold saveWithdrawal at hx
  by_cases hex : st.withdrawals.any (fun y => y.id == w.id) = true
  · simp only [hex, if_true] at hx
    exact mem_map_update (fun (y : Withdrawal) => y.id) st.withdrawals w x w.id hx
  · simp only [Bool.not_eq_true] at hex
    simp only [hex, Bool.false_eq_true, if_false] at hx
    rcases List.mem_append.mp hx with hmem | hmem
    · refine Or.inr ⟨hmem, ?_⟩
      have hb := List.any_eq_false.mp hex x hmem
      simpa using hb
    · left; simpa using hmem

theorem mem_saveWithdrawal_of_ne {st : LedgerState} {w x : Withdrawal}
    (hx : x ∈ st.withdrawals) (hne : (x.id == w.id) = false) :
    x ∈ (saveWithdrawal st w).withdrawals := by
  unfold saveWithdrawal
  by_cases hex : st.withdrawals.any (fun y => y.id == w.id) = true
  · simp only [hex, if_true]
    have : (fun y => if y.id == w.id then w else y) x = x := by simp [hne]
    exact this ▸ List.mem_map_of_mem _ hx
  · simp only [Bool.not_eq_true] at hex
    simp only [hex, Bool.false_eq_true, if_false]
    exact List.mem_append_left _ hx

theorem outstanding_append (l₁ l₂ : List Withdrawal) (cid : String) :
    outstanding (l₁ ++ l₂) cid = outstanding l₁ cid + outstanding l₂ cid := by
  unfold outstanding
  rw [List.map_append, List.sum_append]

theorem outstanding_saveWithdrawal {st : LedgerState} (w0 : Withdrawal)
    (w2 : Withdrawal) (cid : String) (h0 : w0 ∈ st.withdrawals)
    (hnd : withdrawalIdsNodup st) (hid : w2.id = w0.id) :
    outstanding (saveWithdrawal st w2).withdrawals cid
      = outstanding st.withdrawals cid
        - withdrawnContribution w0 cid + withdrawnContribution w2 cid := by
  have hex : st.withdrawals.any (fun x => x.id == w2.id) = true :=
    List.any_eq_true.mpr ⟨w0, h0, by simp [hid]⟩
  unfold saveWithdrawal
  simp only [hex, if_true]
  exact sum_map_update st.withdrawals w0 w2 (fun x => withdrawnContribution x cid) h0 hnd hid

theorem saveWithdrawal_append {st : LedgerState} {w : Withdrawal}
    (h : ∀ x ∈ st.withdrawals, (x.id == w.id) = false) :
    (saveWithdrawal st w).withdrawals = st.withdrawals ++ [w] := by
  unfold saveWithdrawal
  have hex : st.withdrawals.any (fun x => x.id == w.id) = false :=
    List.any_eq_false.mpr (fun x hx => by simp [h x hx])
  simp [hex]

theorem refundToWallet_found {st : LedgerState} (w : Withdrawal) {wal : Wallet}
    (hfind : findWallet st w.creatorId = some wal) :
    refundToWallet st w = saveWallet st { wal with balance := wal.balance + w.amount } := by
  unfold refundToWallet; rw [hfind]

theorem refundToWallet_missing {st : LedgerState} (w : Withdrawal)
    (hfind : findWallet st w.creatorId = none) :
    refundToWallet st w = st := by
  unfold refundToWallet; rw [hfind]

/-! ## Preservation of the balance invariant -/

theorem ledgerInv_congr {st : LedgerState} {dep dep2 : String → Int}
    (h : LedgerInv st dep) (he : ∀ c, dep c = dep2 c) : LedgerInv st dep2 := by
  constructor
  · intro x hx; rw [← he]; exact h.balance_eq x hx
  · intro cid hc; rw [← he]; exact h.no_wallet_dep cid hc
  · exact h.no_wallet_wd
  · exact h.wkeys
  · exact h.wids

/-- Marking a `PROCESSING` withdrawal `COMPLETED` preserves the invariant:
the row keeps counting against the balance. -/
theorem inv_save_completed {st : LedgerState} {dep : String → Int} {w : Withdrawal}
    (hInv : LedgerInv st dep) (hmem : w ∈ st.withdrawals)
    (hproc : w.status = .PROCESSING) :
    LedgerInv (saveWithdrawal st { w with status := .COMPLETED }) dep := by
  have hout : ∀ cid,
      outstanding (saveWithdrawal st { w with status := .COMPLETED }).withdrawals cid
        = outstanding st.withdrawals cid := by
    intro cid
    rw [outstanding_saveWithdrawal w { w with status := .COMPLETED } cid hmem hInv.wids rfl]
    have hc : withdrawnContribution { w with status := .COMPLETED } cid
        = withdrawnContribution w cid := by
      simp [withdrawnContribution, countsAgainstBalance, hproc]
    rw [hc]; ring
  constructor
  · intro x hx
    rw [saveWithdrawal_wallets] at hx
    rw [hout]
    exact hInv.balance_eq x hx
  · intro cid hnone
    rw [findWallet_of_wallets_eq (saveWithdrawal_wallets st _)] at hnone
    exact hInv.no_wallet_dep cid hnone
  · intro wd hwd hstat
    rw [findWallet_of_wallets_eq (saveWithdrawal_wallets st _)]
    rcases mem_saveWithdrawal_cases hwd with rfl | ⟨hwd2, hne⟩
    · exact hInv.no_wallet_wd w hmem (by simp [hproc])
    · exact hInv.no_wallet_wd wd hwd2 hstat
  · unfold walletKeysNodup
    rw [saveWithdrawal_wallets]
    exact hInv.wkeys
  · exact saveWithdrawal_ids_nodup _ hInv.wids

/-- Marking a `PROCESSING` withdrawal `FAILED` and crediting the wallet back
preserves the invariant: the row stops counting and the balance grows by the
same amount. -/
theorem inv_save_failed_refund {st : LedgerState} {dep : String → Int}
    {w : Withdrawal} (r : Option String)
    (hInv : LedgerInv st dep) (hmem : w ∈ st.withdrawals)
    (hproc : w.status = .PROCESSING) :
    LedgerInv (saveWithdrawal
      (refundToWallet st { w with status := .FAILED, failureReason := r })
      { w with status := .FAILED, failureReason := r }) dep := by
  have hsome : (findWallet st w.creatorId).isSome = true :=
    hInv.no_wallet_wd w hmem (by simp [hproc])
  rcases Option.isSome_iff_exists.mp hsome with ⟨wal, hfind⟩
  have hwc : wal.creatorId = w.creatorId := (findWallet_mem hfind).2
  have hwalmem : wal ∈ st.wallets := (findWallet_mem hfind).1
  have hrefund : refundToWallet st { w with status := .FAILED, failureReason := r }
      = saveWallet st { wal with balance := wal.balance + w.amount } :=
    refundToWallet_found { w with status := .FAILED, failureReason := r } hfind
  rw [hrefund]
  have hwd1 : (saveWallet st { wal with balance := wal.balance + w.amount }).withdrawals
      = st.withdrawals := saveWallet_withdrawals st _
  have hnd1 : withdrawalIdsNodup (saveWallet st { wal with balance := wal.balance + w.amount }) := by
    unfold withdrawalIdsNodup
    rw [hwd1]
    exact hInv.wids
  have hout : ∀ cid,
      outstanding (saveWithdrawal
        (saveWallet st { wal with balance := wal.balance + w.amount })
        { w with status := .FAILED, failureReason := r }).withdrawals cid
      = outstanding st.withdrawals cid - withdrawnContribution w cid := by
    intro cid
    have hmem1 : w ∈ (saveWallet st { wal with balance := wal.balance + w.amount }).withdrawals := by
      rw [hwd1]; exact hmem
    rw [outstanding_saveWithdrawal w
      { w with status := .FAILED, failureReason := r } cid hmem1 hnd1 rfl]
    have hc : withdrawnContribution { w with status := .FAILED, failureReason := r } cid = 0 := by
      simp [withdrawnContribution, countsAgainstBalance]
    rw [hwd1, hc]; ring
  constructor
  · intro x hx
    rw [saveWithdrawal_wallets] at hx
    rw [hout]
    rcases mem_saveWallet_cases hx with rfl | ⟨hx2, hne⟩
    · have hbal := hInv.balance_eq wal hwalmem
      have hcw : withdrawnContribution w wal.creatorId = w.amount := by
        simp [withdrawnContribution, countsAgainstBalance, hproc, hwc]
      simp only [hwc] at hbal ⊢
      have hcw2 : withdrawnContribution w w.creatorId = w.amount := by
        simp [withdrawnContribution, countsAgainstBalance, hproc]
      rw [hcw2]
      omega
    · have hnec : ¬ (w.creatorId = x.creatorId) := by
        intro hcon
        have : x.creatorId = wal.creatorId := by rw [hwc, hcon]
        simp [this] at hne
      have hc0 : withdrawnContribution w x.creatorId = 0 := by
        simp [withdrawnContribution, hnec]
      rw [hc0]
      have := hInv.balance_eq x hx2
      omega
  · intro cid hnone
    rw [findWallet_of_wallets_eq (saveWithdrawal_wallets _ _), findWallet_saveWallet] at hnone
    by_cases hcid : cid = ({ wal with balance := wal.balance + w.amount } : Wallet).creatorId
    · rw [if_pos hcid] at hnone; cases hnone
    · rw [if_neg hcid] at hnone
      exact hInv.no_wallet_dep cid hnone
  · intro wd hwd hstat
    rw [findWallet_of_wallets_eq (saveWithdrawal_wallets _ _), findWallet_saveWallet]
    rcases mem_saveWithdrawal_cases hwd with rfl | ⟨hwd2, hne⟩
    · simp at hstat
    · rw [hwd1] at hwd2
      have hold := hInv.no_wallet_wd wd hwd2 hstat
      by_cases hcid : wd.creatorId = ({ wal with balance := wal.balance + w.amount } : Wallet).creatorId
      · rw [if_pos hcid]; rfl
      · rw [if_neg hcid]; exact hold
  · unfold walletKeysNodup
    rw [saveWithdrawal_wallets]
    exact saveWallet_keys_nodup _ hInv.wkeys
  · exact saveWithdrawal_ids_nodup _ hnd1

/-! ## Shape of the reconciliation writes

Every write path of the reconciliation code transforms the in-memory
withdrawal into either a `COMPLETED` copy (no wallet write) or a `FAILED`
copy with some failure reason (with a credit-back attempt), or leaves the
state alone. -/

theorem updateWithdrawalFromItem_shape (st : LedgerState) (w : Withdrawal)
    (item : NormItem) :
    updateWithdrawalFromItem st w item = (w, st)
    ∨ updateWithdrawalFromItem st w item
        = ({ w with status := .COMPLETED }, saveWithdrawal st { w with status := .COMPLETED })
    ∨ ∃ r : String, updateWithdrawalFromItem st w item
        = ({ w with status := .FAILED, failureReason := some r },
           saveWithdrawal
             (refundToWallet st { w with status := .FAILED, failureReason := some r })
             { w with status := .FAILED, failureReason := some r }) := by
  unfold updateWithdrawalFromItem
  dsimp only
  split
  · right; left; rfl
  · split
    · right; right; exact ⟨_, rfl⟩
    · left; rfl

theorem reconcileFromBatch_shape (st : LedgerState) (w : Withdrawal)
    (items : List NormItem) :
    reconcileFromBatch st w items = (w, st)
    ∨ reconcileFromBatch st w items
        = ({ w with status := .COMPLETED }, saveWithdrawal st { w with status := .COMPLETED })
    ∨ ∃ r : String, reconcileFromBatch st w items
        = ({ w with status := .FAILED, failureReason := some r },
           saveWithdrawal
             (refundToWallet st { w with status := .FAILED, failureReason := some r })
             { w with status := .FAILED, failureReason := some r }) := by
  unfold reconcileFromBatch
  split
  · split
    · exact updateWithdrawalFromItem_shape st w _
    · left; rfl
  · left; rfl

theorem processOneWithdrawal_ok_shape {client : PayPalClient} {st st2 : LedgerState}
    {w : Withdrawal} (h : processOneWithdrawal client st w = .ok st2) :
    st2 = st
    ∨ st2 = saveWithdrawal st { w with status := .COMPLETED }
    ∨ ∃ r : String, st2
        = saveWithdrawal
            (refundToWallet st { w with status := .FAILED, failureReason := some r })
            { w with status := .FAILED, failureReason := some r } := by
  unfold processOneWithdrawal at h
  cases hg : getPayoutStatus ((w.paypalBatchId).getD "")
      (client.batchResult ((w.paypalBatchId).getD "")) with
  | error e => rw [hg] at h; cases h
  | ok ps =>
    rw [hg] at h
    simp only at h
    rcases reconcileFromBatch_shape st w ps.items with hr | hr | ⟨r, hr⟩ <;>
      rw [hr] at h <;> simp only at h
    · -- step 3 left the row alone; step 4 may still act
      by_cases hcond : (strTruthy w.paypalPayoutItemId && w.status == WStatus.PROCESSING) = true
      · rw [if_pos hcond] at h
        cases hi : getPayoutItemStatus (client.itemResult ((w.paypalPayoutItemId).getD "")) with
        | error e2 =>
          rw [hi] at h
          cases h
          left; rfl
        | ok its =>
          rw [hi] at h
          dsimp only at h
          by_cases hsucc : (its.status == "SUCCESS") = true
          · rw [if_pos hsucc] at h
            cases h
            right; left; rfl
          · rw [if_neg hsucc] at h
            by_cases hfail : (its.status == "FAILED") = true
            · rw [if_pos hfail] at h
              cases h
              right; right; exact ⟨_, rfl⟩
            · rw [if_neg hfail] at h
              cases h
              left; rfl
      · rw [if_neg hcond] at h
        cases h
        left; rfl
    · -- step 3 marked the row COMPLETED; step 4 is skipped
      have hcond : (strTruthy ({ w with status := WStatus.COMPLETED } : Withdrawal).paypalPayoutItemId
          && ({ w with status := WStatus.COMPLETED } : Withdrawal).status == WStatus.PROCESSING) = false := by
        simp
      rw [hcond] at h
      simp only [Bool.false_eq_true, if_false] at h
      cases h
      right; left; rfl
    · -- step 3 marked the row FAILED; step 4 is skipped
      have hcond : (strTruthy ({ w with status := WStatus.FAILED, failureReason := some r } : Withdrawal).paypalPayoutItemId
          && ({ w with status := WStatus.FAILED, failureReason := some r } : Withdrawal).status == WStatus.PROCESSING) = false := by
        simp
      rw [hcond] at h
      simp only [Bool.false_eq_true, if_false] at h
      cases h
      right; right; exact ⟨r, rfl⟩

theorem tickStep_shape (client : PayPalClient) (st : LedgerState) (w : Withdrawal) :
    tickStep client st w = st
    ∨ tickStep client st w = saveWithdrawal st { w with status := .COMPLETED }
    ∨ ∃ r : String, tickStep client st w
        = saveWithdrawal
            (refundToWallet st { w with status := .FAILED, failureReason := some r })
            { w with status := .FAILED, failureReason := some r } := by
  unfold tickStep
  by_cases hb : strTruthy w.paypalBatchId = true
  · rw [if_pos hb]
    cases hp : processOneWithdrawal client st w with
    | ok st2 => exact processOneWithdrawal_ok_shape hp
    | error e => left; rfl
  · rw [if_neg hb]
    left; rfl

theorem tickStep_inv {client : PayPalClient} {st : LedgerState} {dep : String → Int}
    {w : Withdrawal} (hInv : LedgerInv st dep) (hmem : w ∈ st.withdrawals)
    (hproc : w.status = .PROCESSING) :
    LedgerInv (tickStep client st w) dep := by
  rcases tickStep_shape client st w with h | h | ⟨r, h⟩ <;> rw [h]
  · exact hInv
  · exact inv_save_completed hInv hmem hproc
  · exact inv_save_failed_refund (some r) hInv hmem hproc

theorem tickStep_mem_ne {client : PayPalClient} {st : LedgerState} {w x : Withdrawal}
    (hx : x ∈ st.withdrawals) (hne : (x.id == w.id) = false) :
    x ∈ (tickStep client st w).withdrawals := by
  rcases tickStep_shape client st w with h | h | ⟨r, h⟩ <;> rw [h]
  · exact hx
  · exact mem_saveWithdrawal_of_ne hx hne
  · have hx2 : x ∈ (refundToWallet st
        { w with status := .FAILED, failureReason := some r }).withdrawals := by
      rw [refundToWallet_withdrawals]
      exact hx
    exact mem_saveWithdrawal_of_ne hx2 hne

theorem foldl_tickStep_inv (client : PayPalClient) :
    ∀ (l : List Withdrawal) (st : LedgerState) (dep : String → Int),
      LedgerInv st dep →
      (∀ w ∈ l, w ∈ st.withdrawals ∧ w.status = .PROCESSING) →
      (l.map (fun w => w.id)).Nodup →
      LedgerInv (l.foldl (tickStep client) st) dep
  | [], _, _, hInv, _, _ => hInv
  | w :: t, st, dep, hInv, hl, hnd => by
    rw [List.foldl_cons]
    have hw := hl w (List.mem_cons_self w t)
    simp only [List.map_cons, List.nodup_cons] at hnd
    apply foldl_tickStep_inv client t _ dep (tickStep_inv hInv hw.1 hw.2)
    · intro x hx
      have hxl := hl x (List.mem_cons_of_mem w hx)
      refine ⟨tickStep_mem_ne hxl.1 ?_, hxl.2⟩
      rw [beq_eq_false_iff_ne]
      intro hcon
      exact hnd.1 (hcon ▸ List.mem_map.mpr ⟨x, hx, rfl⟩)
    · exact hnd.2

theorem tick_inv {client : PayPalClient} {st : LedgerState} {dep : String → Int}
    (hInv : LedgerInv st dep) :
    LedgerInv (updateWithdrawalStatuses client st) dep := by
  unfold updateWithdrawalStatuses
  apply foldl_tickStep_inv client _ st dep hInv
  · intro w hw
    have hmf := List.mem_filter.mp hw
    exact ⟨hmf.1, by simpa using hmf.2⟩
  · exact List.Nodup.sublist
      (List.Sublist.map (fun w => w.id) (List.filter_sublist st.withdrawals)) hInv.wids

/-! ## Invariant preservation by each service operation -/

theorem outstanding_zero : ∀ (l : List Withdrawal) (cid : String),
    (∀ wd ∈ l, withdrawnContribution wd cid = 0) → outstanding l cid = 0
  | [], _, _ => rfl
  | y :: t, cid, h => by
    unfold outstanding
    simp only [List.map_cons, List.sum_cons, h y (List.mem_cons_self y t)]
    have ht := outstanding_zero t cid (fun wd hwd => h wd (List.mem_cons_of_mem y hwd))
    unfold outstanding at ht
    rw [ht]
    simp

theorem createWallet_inv {st : LedgerState} {dep : String → Int} (cid : String)
    (hInv : LedgerInv st dep) : LedgerInv (createWallet st cid).1 dep := by
  unfold createWallet
  cases hf : findWallet st cid with
  | some w => exact hInv
  | none =>
    dsimp only
    have hdep0 : dep cid = 0 := hInv.no_wallet_dep cid hf
    have hout0 : outstanding st.withdrawals cid = 0 := by
      apply outstanding_zero
      intro wd hwd
      by_cases hcrea : (wd.creatorId == cid) = true
      · have hstat : wd.status = .FAILED := by
          by_contra hcon
          have := hInv.no_wallet_wd wd hwd hcon
          rw [(beq_iff_eq).mp hcrea, hf] at this
          cases this
        simp [withdrawnContribution, countsAgainstBalance, hstat]
      · simp only [Bool.not_eq_true] at hcrea
        simp [withdrawnContribution, hcrea]
    constructor
    · intro x hx
      rw [saveWallet_withdrawals]
      rcases mem_saveWallet_cases hx with rfl | ⟨hx2, hne⟩
      · dsimp only
        rw [hdep0, hout0]
        simp
      · exact hInv.balance_eq x hx2
    · intro c hnone
      rw [findWallet_saveWallet] at hnone
      dsimp only at hnone
      by_cases hc : c = cid
      · rw [if_pos hc] at hnone; cases hnone
      · rw [if_neg hc] at hnone
        exact hInv.no_wallet_dep c hnone
    · intro wd hwd hstat
      rw [saveWallet_withdrawals] at hwd
      rw [findWallet_saveWallet]
      dsimp only
      by_cases hc : wd.creatorId = cid
      · rw [if_pos hc]; rfl
      · rw [if_neg hc]
        exact hInv.no_wallet_wd wd hwd hstat
    · exact saveWallet_keys_nodup _ hInv.wkeys
    · unfold withdrawalIdsNodup
      rw [saveWallet_withdrawals]
      exact hInv.wids

theorem linkPayPal_inv {st : LedgerState} {dep : String → Int} (cid email : String)
    (hInv : LedgerInv st dep) : LedgerInv (linkPayPal st cid email).1 dep := by
  unfold linkPayPal
  cases hf : findWallet st cid with
  | none => exact hInv
  | some w =>
    dsimp only
    have hwmem : w ∈ st.wallets := (findWallet_mem hf).1
    constructor
    · intro x hx
      rw [saveWallet_withdrawals]
      rcases mem_saveWallet_cases hx with rfl | ⟨hx2, hne⟩
      · exact hInv.balance_eq w hwmem
      · exact hInv.balance_eq x hx2
    · intro c hnone
      rw [findWallet_saveWallet] at hnone
      dsimp only at hnone
      by_cases hc : c = w.creatorId
      · rw [if_pos hc] at hnone; cases hnone
      · rw [if_neg hc] at hnone
        exact hInv.no_wallet_dep c hnone
    · intro wd hwd hstat
      rw [saveWallet_withdrawals] at hwd
      rw [findWallet_saveWallet]
      dsimp only
      by_cases hc : wd.creatorId = w.creatorId
      · rw [if_pos hc]; rfl
      · rw [if_neg hc]
        exact hInv.no_wallet_wd wd hwd hstat
    · exact saveWallet_keys_nodup _ hInv.wkeys
    · unfold withdrawalIdsNodup
      rw [saveWallet_withdrawals]
      exact hInv.wids

theorem deposit_inv {st : LedgerState} {dep : String → Int} (cid : String) (a : Int)
    (hInv : LedgerInv st dep) :
    LedgerInv (deposit st cid a)
      (fun c => dep c + (if (cid == c) && (findWallet st cid).isSome then a else 0)) := by
  unfold deposit
  cases hf : findWallet st cid with
  | none =>
    apply ledgerInv_congr hInv
    intro c
    simp [hf]
  | some wal =>
    have hwmem : wal ∈ st.wallets := (findWallet_mem hf).1
    have hwc : wal.creatorId = cid := (findWallet_mem hf).2
    dsimp only
    simp only [Option.isSome_some, Bool.and_true]
    constructor
    · intro x hx
      rw [saveWallet_withdrawals]
      rcases mem_saveWallet_cases hx with rfl | ⟨hx2, hne⟩
      · have hb := hInv.balance_eq wal hwmem
        dsimp only
        rw [if_pos (show (cid == wal.creatorId) = true by simp [hwc])]
        omega
      · dsimp only at hne
        have hcc : (cid == x.creatorId) = false := by
          rw [beq_eq_false_iff_ne]
          intro hcon
          have hT : (x.creatorId == wal.creatorId) = true := by
            rw [hwc, ← hcon]
            simp
          rw [hT] at hne
          cases hne
        rw [if_neg (by simp [hcc])]
        have hb := hInv.balance_eq x hx2
        omega
    · intro c hnone
      rw [findWallet_saveWallet] at hnone
      dsimp only at hnone
      by_cases hc : c = wal.creatorId
      · rw [if_pos hc] at hnone; cases hnone
      · rw [if_neg hc] at hnone
        have hd := hInv.no_wallet_dep c hnone
        have hcc : (cid == c) = false := by
          rw [beq_eq_false_iff_ne]
          intro hcon
          exact hc (by rw [← hcon]; exact hwc.symm)
        simp [hd, hcc]
    · intro wd hwd hstat
      rw [saveWallet_withdrawals] at hwd
      rw [findWallet_saveWallet]
      dsimp only
      by_cases hc : wd.creatorId = wal.creatorId
      · rw [if_pos hc]; rfl
      · rw [if_neg hc]
        exact hInv.no_wallet_wd wd hwd hstat
    · exact saveWallet_keys_nodup _ hInv.wkeys
    · unfold withdrawalIdsNodup
      rw [saveWallet_withdrawals]
      exact hInv.wids

theorem saveWithdrawal_replace_last {st : LedgerState} {w1 w2 : Withdrawal}
    {l : List Withdrawal}
    (h1 : st.withdrawals = l ++ [w1])
    (hfreshl : ∀ x ∈ l, (x.id == w1.id) = false)
    (hid : w2.id = w1.id) :
    (saveWithdrawal st w2).withdrawals = l ++ [w2] := by
  have hex : st.withdrawals.any (fun x => x.id == w2.id) = true := by
    apply List.any_eq_true.mpr
    refine ⟨w1, ?_, by simp [hid]⟩
    rw [h1]
    exact List.mem_append_right _ (by simp)
  unfold saveWithdrawal
  rw [if_pos hex, h1, List.map_append]
  dsimp only
  congr 1
  · apply map_update_eq_self (fun (x : Withdrawal) => x.id) l w2 w2.id
    intro x hx
    rw [hid]
    exact hfreshl x hx
  · simp [hid]

/-- The common shape of a successful or compensated `requestWithdrawal`: the
requesting creator's wallet is replaced by `walF`, one new withdrawal row
`wNew` is appended, and `walF`'s balance differs from the old one exactly by
`wNew`'s contribution. -/
theorem inv_debit_append (st st2 : LedgerState) (dep : String → Int)
    (wal walF : Wallet) (wNew : Withdrawal)
    (hInv : LedgerInv st dep)
    (hwalmem : wal ∈ st.wallets)
    (hkeyF : walF.creatorId = wal.creatorId)
    (hkeyN : wNew.creatorId = wal.creatorId)
    (hbal : walF.balance = wal.balance - withdrawnContribution wNew wal.creatorId)
    (hfresh : ∀ x ∈ st.withdrawals, (x.id == wNew.id) = false)
    (hfindc : ∀ c, findWallet st2 c = if c = wal.creatorId then some walF else findWallet st c)
    (hmemc : ∀ x ∈ st2.wallets, x = walF ∨ (x ∈ st.wallets ∧ ¬ x.creatorId = wal.creatorId))
    (hkeys : walletKeysNodup st2)
    (hrows : st2.withdrawals = st.withdrawals ++ [wNew]) :
    LedgerInv st2 dep := by
  have hout : ∀ c, outstanding st2.withdrawals c
      = outstanding st.withdrawals c + withdrawnContribution wNew c := by
    intro c
    rw [hrows, outstanding_append]
    congr 1
    unfold outstanding
    simp
  constructor
  · intro x hx
    rcases hmemc x hx with rfl | ⟨hx2, hne⟩
    · rw [hout, hkeyF]
      have hb := hInv.balance_eq wal hwalmem
      omega
    · rw [hout]
      have hb := hInv.balance_eq x hx2
      have h0 : withdrawnContribution wNew x.creatorId = 0 := by
        unfold withdrawnContribution
        have hcc : (wNew.creatorId == x.creatorId) = false := by
          rw [beq_eq_false_iff_ne, hkeyN]
          exact fun hcon => hne hcon.symm
        simp [hcc]
      omega
  · intro c hnone
    rw [hfindc c] at hnone
    by_cases hc : c = wal.creatorId
    · rw [if_pos hc] at hnone; cases hnone
    · rw [if_neg hc] at hnone
      exact hInv.no_wallet_dep c hnone
  · intro wd hwd hstat
    rw [hrows] at hwd
    rw [hfindc]
    rcases List.mem_append.mp hwd with hmem | hmem
    · by_cases hc : wd.creatorId = wal.creatorId
      · rw [if_pos hc]; rfl
      · rw [if_neg hc]
        exact hInv.no_wallet_wd wd hmem hstat
    · have heq : wd = wNew := by simpa using hmem
      subst heq
      rw [if_pos hkeyN]
      rfl
  · exact hkeys
  · have hw := hInv.wids
    unfold withdrawalIdsNodup at hw ⊢
    rw [hrows, ← List.concat_eq_append, List.map_concat]
    apply List.Nodup.concat ?_ hw
    intro hmem
    rcases List.mem_map.mp hmem with ⟨x, hx, hkey⟩
    have := hfresh x hx
    simp [hkey] at this

theorem requestWithdrawal_inv {st : LedgerState} {dep : String → Int}
    (cid : String) (amount : Int) (newId : String)
    (cr : Except ClientError (Option RawSendResponse))
    (hInv : LedgerInv st dep)
    (hfresh : ∀ x ∈ st.withdrawals, (x.id == newId) = false) :
    LedgerInv (requestWithdrawal st cid amount newId cr).1 dep := by
  unfold requestWithdrawal
  by_cases h1 : amount ≤ 0
  · rw [if_pos h1]; exact hInv
  rw [if_neg h1]
  by_cases h2 : amount < 5
  · rw [if_pos h2]; exact hInv
  rw [if_neg h2]
  cases hf : findWallet st cid with
  | none => exact hInv
  | some wal =>
    dsimp only
    by_cases h3 : (!strTruthy wal.paypalEmail) = true
    · rw [if_pos h3]; exact hInv
    rw [if_neg h3]
    by_cases h4 : amount > wal.balance
    · rw [if_pos h4]; exact hInv
    rw [if_neg h4]
    have hwmem : wal ∈ st.wallets := (findWallet_mem hf).1
    have hwc : wal.creatorId = cid := (findWallet_mem hf).2
    have hA : (saveWallet st { wal with balance := wal.balance - amount }).withdrawals = st.withdrawals := saveWallet_withdrawals st _
    have hB : (saveWithdrawal (saveWallet st { wal with balance := wal.balance - amount }) { id := newId, creatorId := cid, amount := amount, status := WStatus.PENDING, paypalEmail := (wal.paypalEmail).getD "", paypalBatchId := none, paypalPayoutItemId := none, failureReason := none }).withdrawals = st.withdrawals ++ [{ id := newId, creatorId := cid, amount := amount, status := WStatus.PENDING, paypalEmail := (wal.paypalEmail).getD "", paypalBatchId := none, paypalPayoutItemId := none, failureReason := none }] := by
      have hfr : ∀ x ∈ (saveWallet st { wal with balance := wal.balance - amount }).withdrawals, (x.id == ({ id := newId, creatorId := cid, amount := amount, status := WStatus.PENDING, paypalEmail := (wal.paypalEmail).getD "", paypalBatchId := none, paypalPayoutItemId := none, failureReason := none } : Withdrawal).id) = false := by
        intro x hx
        rw [hA] at hx
        exact hfresh x hx
      rw [saveWithdrawal_append hfr, hA]
    have hinner : ∀ c, findWallet (saveWithdrawal (saveWallet st { wal with balance := wal.balance - amount }) { id := newId, creatorId := cid, amount := amount, status := WStatus.PENDING, paypalEmail := (wal.paypalEmail).getD "", paypalBatchId := none, paypalPayoutItemId := none, failureReason := none }) c = if c = wal.creatorId then some { wal with balance := wal.balance - amount } else findWallet st c := by
      intro c
      rw [findWallet_of_wallets_eq (saveWithdrawal_wallets _ _) c, findWallet_saveWallet]
    have hkeysInner : walletKeysNodup (saveWithdrawal (saveWallet st { wal with balance := wal.balance - amount }) { id := newId, creatorId := cid, amount := amount, status := WStatus.PENDING, paypalEmail := (wal.paypalEmail).getD "", paypalBatchId := none, paypalPayoutItemId := none, failureReason := none }) := by
      have hk := saveWallet_keys_nodup { wal with balance := wal.balance - amount } hInv.wkeys
      unfold walletKeysNodup at hk ⊢
      rw [saveWithdrawal_wallets]
      exact hk
    cases hs : sendPayout cr with
    | ok pr =>
      dsimp only
      apply inv_debit_append st _ dep wal { wal with balance := wal.balance - amount } { id := newId, creatorId := cid, amount := amount, status := WStatus.PROCESSING, paypalEmail := (wal.paypalEmail).getD "", paypalBatchId := pr.batchId, paypalPayoutItemId := pr.payoutItemId, failureReason := none } hInv hwmem rfl hwc.symm
      · simp [withdrawnContribution, countsAgainstBalance, hwc]
      · exact hfresh
      · intro c
        rw [findWallet_of_wallets_eq (saveWithdrawal_wallets _ _) c, hinner c]
      · intro x hx
        rw [saveWithdrawal_wallets, saveWithdrawal_wallets] at hx
        rcases mem_saveWallet_cases hx with rfl | ⟨hx2, hne⟩
        · left; rfl
        · right
          refine ⟨hx2, ?_⟩
          rw [beq_eq_false_iff_ne] at hne
          exact hne
      · have hk := hkeysInner
        unfold walletKeysNodup at hk ⊢
        rw [saveWithdrawal_wallets]
        exact hk
      · apply saveWithdrawal_replace_last hB
        · intro x hx
          exact hfresh x hx
        · rfl
    | error e =>
      dsimp only
      apply inv_debit_append st _ dep wal { wal with balance := wal.balance - amount + amount } { id := newId, creatorId := cid, amount := amount, status := WStatus.FAILED, paypalEmail := (wal.paypalEmail).getD "", paypalBatchId := none, paypalPayoutItemId := none, failureReason := some e } hInv hwmem rfl hwc.symm
      · simp [withdrawnContribution, countsAgainstBalance]
      · exact hfresh
      · intro c
        rw [findWallet_of_wallets_eq (saveWithdrawal_wallets _ _) c, findWallet_saveWallet]
        dsimp only
        by_cases hc : c = wal.creatorId
        · rw [if_pos hc, if_pos hc]
        · rw [if_neg hc, if_neg hc, hinner c, if_neg hc]
      · intro x hx
        rw [saveWithdrawal_wallets] at hx
        rcases mem_saveWallet_cases hx with rfl | ⟨hx2, hne⟩
        · left; rfl
        · rw [saveWithdrawal_wallets] at hx2
          rcases mem_saveWallet_cases hx2 with rfl | ⟨hx3, hne3⟩
          · dsimp only at hne
            simp at hne
          · right
            refine ⟨hx3, ?_⟩
            rw [beq_eq_false_iff_ne] at hne3
            exact hne3
      · have hk := saveWallet_keys_nodup { wal with balance := wal.balance - amount + amount } hkeysInner
        unfold walletKeysNodup at hk ⊢
        rw [saveWithdrawal_wallets]
        exact hk
      · apply saveWithdrawal_replace_last
        · rw [saveWallet_withdrawals]
          exact hB
        · intro x hx
          exact hfresh x hx
        · rfl

theorem forceCheck_inv {client : PayPalClient} {st : LedgerState} {dep : String → Int}
    (wid : String) (hInv : LedgerInv st dep) :
    LedgerInv (forceCheckWithdrawal client st wid).1 dep := by
  unfold forceCheckWithdrawal
  cases hf : findWithdrawal st wid with
  | none => exact hInv
  | some w =>
    dsimp only
    by_cases hstat : w.status ≠ WStatus.PROCESSING
    · rw [if_pos hstat]; exact hInv
    rw [if_neg hstat]
    by_cases hb : (!strTruthy w.paypalBatchId) = true
    · rw [if_pos hb]; exact hInv
    rw [if_neg hb]
    cases hg : getPayoutStatus ((w.paypalBatchId).getD "")
        (client.batchResult ((w.paypalBatchId).getD "")) with
    | error e => exact hInv
    | ok ps =>
      dsimp only
      cases hh : ps.items.head? with
      | none => exact hInv
      | some item =>
        dsimp only
        have hproc : w.status = .PROCESSING := not_ne_iff.mp hstat
        have hmem : w ∈ st.withdrawals := (findWithdrawal_mem hf).1
        rcases updateWithdrawalFromItem_shape st w item with hu | hu | ⟨r, hu⟩ <;> rw [hu]
        · exact hInv
        · exact inv_save_completed hInv hmem hproc
        · exact inv_save_failed_refund (some r) hInv hmem hproc

/-- One admissible operation preserves the invariant, with the deposit total
adjusted by the operation's own deposit. -/
theorem applyOp_inv {st : LedgerState} {dep : String → Int} (op : Op)
    (hInv : LedgerInv st dep) (hfresh : opFresh st op = true) :
    LedgerInv (applyOp st op) (fun c => dep c + opDeposit st op c) := by
  cases op with
  | createWallet cid =>
    simp only [applyOp, opDeposit]
    apply ledgerInv_congr (createWallet_inv cid hInv)
    intro c; simp
  | linkPayPal cid email =>
    simp only [applyOp, opDeposit]
    apply ledgerInv_congr (linkPayPal_inv cid email hInv)
    intro c; simp
  | deposit cid a =>
    simp only [applyOp, opDeposit]
    exact deposit_inv cid a hInv
  | requestWithdrawal cid amount newId cr =>
    simp only [applyOp, opDeposit]
    have hfr : ∀ x ∈ st.withdrawals, (x.id == newId) = false := by
      intro x hx
      unfold opFresh at hfresh
      have := List.all_eq_true.mp hfresh x hx
      simpa using this
    apply ledgerInv_congr (requestWithdrawal_inv cid amount newId cr hInv hfr)
    intro c; simp
  | tick client =>
    simp only [applyOp, opDeposit]
    apply ledgerInv_congr (tick_inv hInv)
    intro c; simp
  | forceCheck client wid =>
    simp only [applyOp, opDeposit]
    apply ledgerInv_congr (forceCheck_inv wid hInv)
    intro c; simp

theorem emptyLedger_inv : LedgerInv emptyLedger (fun _ => 0) := by
  constructor
  · intro w hw; cases hw
  · intro cid _; rfl
  · intro wd hwd hs; cases hwd
  · exact List.nodup_nil
  · exact List.nodup_nil

theorem runOps_inv : ∀ (ops : List Op) (st : LedgerState) (dep : String → Int),
    LedgerInv st dep → opsFresh st ops = true →
    LedgerInv (ops.foldl applyOp st) (fun c => dep c + depositsOf st ops c)
  | [], st, dep, hInv, _ => by
    apply ledgerInv_congr hInv
    intro c
    simp [depositsOf]
  | op :: rest, st, dep, hInv, hfresh => by
    rw [List.foldl_cons]
    have hsplit : opFresh st op = true ∧ opsFresh (applyOp st op) rest = true := by
      unfold opsFresh at hfresh
      simpa using hfresh
    have h1 := applyOp_inv op hInv hsplit.1
    have h2 := runOps_inv rest (applyOp st op) _ h1 hsplit.2
    apply ledgerInv_congr h2
    intro c
    simp only [depositsOf]
    ring

/-- C1: over any admissible trace of wallet operations from the empty state,
every wallet's balance equals the sum of its deposits minus the sum of the
amounts of its withdrawals whose status is in
`{PENDING, PROCESSING, COMPLETED}`; `FAILED` withdrawals contribute
nothing. -/
theorem c1_balance_invariant (ops : List Op)
    (hfresh : opsFresh emptyLedger ops = true) :
    ∀ w ∈ (runOps ops).wallets,
      w.balance = depositsOf emptyLedger ops w.creatorId
        - outstanding (runOps ops).withdrawals w.creatorId := by
  have h := runOps_inv ops emptyLedger (fun _ => 0) emptyLedger_inv hfresh
  intro w hw
  unfold runOps at hw ⊢
  have hb := h.balance_eq w hw
  simpa using hb

/-- A client whose batch endpoint reports the payout item as failed. -/
def c1ExampleClient : PayPalClient :=
  { batchResult := fun _ => .ok
      { batch_header := some { payout_batch_id := some "B1", batch_status := some "DENIED" }
        items := [{ payout_item_id := "I1", transaction_status := some "FAILED",
                    errorsMessage := some "boom" }] }
    itemResult := fun _ => .error { statusCode := none, message := some "down" } }

/-- A trace exercising creation, linking, a deposit, a submitted withdrawal
and one reconciliation tick that fails the payout and refunds. -/
def c1ExampleOps : List Op :=
  [.createWallet "c",
   .linkPayPal "c" "e@x",
   .deposit "c" 100,
   .requestWithdrawal "c" 20 "w0" (.ok (some
     { batch_header := some { payout_batch_id := some "B1", batch_status := some "PENDING" }
       items := [{ payout_item_id := some "I1" }] })),
   .tick c1ExampleClient]

theorem c1_balance_invariant_witness :
    opsFresh emptyLedger c1ExampleOps = true ∧
    ∀ w ∈ (runOps c1ExampleOps).wallets,
      w.balance = depositsOf emptyLedger c1ExampleOps w.creatorId
        - outstanding (runOps c1ExampleOps).withdrawals w.creatorId :=
  ⟨by decide, c1_balance_invariant c1ExampleOps (by decide)⟩

/-! ## Claims C2, C3, C4 -/

theorem append_ne_empty_left (a b : String) (h : a ≠ "") : a ++ b ≠ "" := by
  intro hcon
  apply h
  have hd : (a ++ b).data = ("" : String).data := by rw [hcon]
  rw [String.data_append] at hd
  have h2 := (List.append_eq_nil.mp hd).1
  cases a with
  | mk d =>
    simp only at h2
    rw [show d = [] from h2]

/-- Every error `sendPayout` surfaces carries a non-empty message (it always
starts with a fixed prefix). -/
theorem sendPayout_error_nonempty {cr : Except ClientError (Option RawSendResponse)}
    {e : String} (h : sendPayout cr = .error e) : e ≠ "" := by
  unfold sendPayout at h
  cases cr with
  | error e0 =>
    dsimp only at h
    by_cases hc : intTruthy e0.statusCode = true
    · rw [if_pos hc] at h
      injection h with he
      rw [← he]
      exact append_ne_empty_left _ _ (append_ne_empty_left _ _
        (append_ne_empty_left _ _ (by decide)))
    · rw [if_neg hc] at h
      injection h with he
      rw [← he]
      exact append_ne_empty_left _ _ (by decide)
  | ok res =>
    dsimp only at h
    cases res with
    | none =>
      dsimp only at h
      injection h with he
      rw [← he]
      decide
    | some r =>
      dsimp only at h
      cases hb : r.batch_header with
      | none =>
        rw [hb] at h
        dsimp only at h
        injection h with he
        rw [← he]
        decide
      | some hd =>
        rw [hb] at h
        dsimp only at h
        cases h

/-- C2: whenever the PayPal submit call inside `requestWithdrawal` fails, the
debit is fully reversed (the wallet balance after the call equals the balance
before), the withdrawal row ends in `FAILED` with a non-empty failure reason,
and the error is surfaced to the caller as a `Withdrawal failed: ...`
exception. -/
theorem c2_submit_failure_reverts (st : LedgerState) (creatorId : String)
    (amount : Int) (newId : String)
    (cr : Except ClientError (Option RawSendResponse)) (e : String) (wallet : Wallet)
    (hs : sendPayout cr = .error e)
    (h1 : ¬ amount ≤ 0) (h2 : ¬ amount < 5)
    (hf : findWallet st creatorId = some wallet)
    (h3 : strTruthy wallet.paypalEmail = true)
    (h4 : ¬ amount > wallet.balance) :
    (∃ wallet2, findWallet (requestWithdrawal st creatorId amount newId cr).1 creatorId
        = some wallet2 ∧ wallet2.balance = wallet.balance)
    ∧ (∃ wd, findWithdrawal (requestWithdrawal st creatorId amount newId cr).1 newId
        = some wd ∧ wd.status = .FAILED ∧ wd.failureReason = some e ∧ e ≠ "")
    ∧ (requestWithdrawal st creatorId amount newId cr).2
        = .error ("Withdrawal failed: " ++ e) := by
  have hwc : wallet.creatorId = creatorId := (findWallet_mem hf).2
  unfold requestWithdrawal
  rw [if_neg h1, if_neg h2, hf]
  dsimp only
  rw [if_neg (by simp [h3]), if_neg h4, hs]
  dsimp only
  refine ⟨⟨{ wallet with balance := wallet.balance - amount + amount }, ?_, ?_⟩,
    ⟨{ id := newId, creatorId := creatorId, amount := amount, status := WStatus.FAILED, paypalEmail := (wallet.paypalEmail).getD "", paypalBatchId := none, paypalPayoutItemId := none, failureReason := some e }, ?_, rfl, rfl, sendPayout_error_nonempty hs⟩, rfl⟩
  · rw [findWallet_of_wallets_eq (saveWithdrawal_wallets _ _) creatorId, findWallet_saveWallet]
    dsimp only
    rw [if_pos hwc.symm]
  · dsimp only
    ring
  · rw [findWithdrawal_saveWithdrawal]
    dsimp only
    rw [if_pos rfl]

theorem c2_submit_failure_reverts_witness :
    (∃ wallet2, findWallet (requestWithdrawal
        { wallets := [{ creatorId := "c", balance := 100, paypalEmail := some "e@x", paypalVerified := true }], withdrawals := [] }
        "c" 20 "w0" (.error { statusCode := none, message := some "boom" })).1 "c"
        = some wallet2 ∧ wallet2.balance = 100)
    ∧ (∃ wd, findWithdrawal (requestWithdrawal
        { wallets := [{ creatorId := "c", balance := 100, paypalEmail := some "e@x", paypalVerified := true }], withdrawals := [] }
        "c" 20 "w0" (.error { statusCode := none, message := some "boom" })).1 "w0"
        = some wd ∧ wd.status = .FAILED
        ∧ wd.failureReason = some "PayPal payout failed: boom"
        ∧ "PayPal payout failed: boom" ≠ "")
    ∧ (requestWithdrawal
        { wallets := [{ creatorId := "c", balance := 100, paypalEmail := some "e@x", paypalVerified := true }], withdrawals := [] }
        "c" 20 "w0" (.error { statusCode := none, message := some "boom" })).2
        = .error ("Withdrawal failed: " ++ "PayPal payout failed: boom") :=
  c2_submit_failure_reverts _ "c" 20 "w0" _ "PayPal payout failed: boom"
    { creatorId := "c", balance := 100, paypalEmail := some "e@x", paypalVerified := true }
    rfl (by decide) (by decide) (by decide) (by decide) (by decide)

/-- C3: any of the validation failures (non-positive amount, amount below the
5-unit minimum, missing wallet, unlinked PayPal email, insufficient balance)
makes `requestWithdrawal` fail with a `BadRequestException` and perform no
ledger write at all. -/
theorem c3_validation_no_writes (st : LedgerState) (creatorId : String)
    (amount : Int) (newId : String)
    (cr : Except ClientError (Option RawSendResponse))
    (h : amount ≤ 0 ∨ amount < 5 ∨ findWallet st creatorId = none
      ∨ (∃ wallet, findWallet st creatorId = some wallet ∧ strTruthy wallet.paypalEmail = false)
      ∨ (∃ wallet, findWallet st creatorId = some wallet ∧ amount > wallet.balance)) :
    (requestWithdrawal st creatorId amount newId cr).1 = st
    ∧ ∃ msg, (requestWithdrawal st creatorId amount newId cr).2 = .error msg := by
  unfold requestWithdrawal
  by_cases h1 : amount ≤ 0
  · rw [if_pos h1]; exact ⟨rfl, _, rfl⟩
  rw [if_neg h1]
  by_cases h2 : amount < 5
  · rw [if_pos h2]; exact ⟨rfl, _, rfl⟩
  rw [if_neg h2]
  cases hf : findWallet st creatorId with
  | none => exact ⟨rfl, _, rfl⟩
  | some wallet =>
    dsimp only
    by_cases h3 : (!strTruthy wallet.paypalEmail) = true
    · rw [if_pos h3]; exact ⟨rfl, _, rfl⟩
    rw [if_neg h3]
    by_cases h4 : amount > wallet.balance
    · rw [if_pos h4]; exact ⟨rfl, _, rfl⟩
    · exfalso
      rcases h with hx | hx | hx | ⟨w2, hw2, ht⟩ | ⟨w2, hw2, hbal⟩
      · exact h1 hx
      · exact h2 hx
      · rw [hf] at hx; cases hx
      · rw [hf] at hw2
        injection hw2 with he
        subst he
        simp [ht] at h3
      · rw [hf] at hw2
        injection hw2 with he
        subst he
        exact h4 hbal

theorem c3_validation_no_writes_witness :
    (requestWithdrawal emptyLedger "c" 3 "w0"
      (.error { statusCode := none, message := none })).1 = emptyLedger
    ∧ ∃ msg, (requestWithdrawal emptyLedger "c" 3 "w0"
      (.error { statusCode := none, message := none })).2 = .error msg :=
  c3_validation_no_writes emptyLedger "c" 3 "w0"
    (.error { statusCode := none, message := none }) (Or.inr (Or.inl (by decide)))

/-- C4: status normalization is a pure total function: case-insensitively,
the success family maps to `SUCCESS`, the failure family to `FAILED`, the
pending family to `PENDING`, any other non-empty string to its upper-cased
form, and a missing status to `UNKNOWN`. -/
theorem c4_normalize_status :
    (∀ s : String, strToLower s ∈ (["success", "completed", "claimed"] : List String) →
      normalizeTransactionStatus (some s) = "SUCCESS")
    ∧ (∀ s : String,
        strToLower s ∈ (["failed", "returned", "refunded", "blocked"] : List String) →
      normalizeTransactionStatus (some s) = "FAILED")
    ∧ (∀ s : String, strToLower s ∈ (["pending", "unclaimed"] : List String) →
      normalizeTransactionStatus (some s) = "PENDING")
    ∧ (∀ s : String, s ≠ "" →
        strToLower s ∉ (["success", "completed", "claimed", "failed", "returned",
          "refunded", "blocked", "pending", "unclaimed"] : List String) →
      normalizeTransactionStatus (some s) = strToUpper s)
    ∧ normalizeTransactionStatus none = "UNKNOWN" := by
  have hlow : ∀ s : String, s = "" → strToLower s = "" := by
    intro s hs; subst hs; rfl
  refine ⟨?_, ?_, ?_, ?_, rfl⟩
  · intro s hs
    have hne : (s == "") = false := by
      rw [beq_eq_false_iff_ne]
      intro hcon
      rw [hlow s hcon] at hs
      simp at hs
    unfold normalizeTransactionStatus
    try dsimp only
    rw [if_neg (by simp [hne])]
    try dsimp only
    simp only [List.mem_cons, List.mem_singleton, List.not_mem_nil, or_false] at hs
    rcases hs with hx | hx | hx <;> rw [if_pos (by simp [hx])]
  · intro s hs
    have hne : (s == "") = false := by
      rw [beq_eq_false_iff_ne]
      intro hcon
      rw [hlow s hcon] at hs
      simp at hs
    unfold normalizeTransactionStatus
    try dsimp only
    rw [if_neg (by simp [hne])]
    try dsimp only
    simp only [List.mem_cons, List.mem_singleton, List.not_mem_nil, or_false] at hs
    rcases hs with hx | hx | hx | hx <;>
      rw [if_neg (by simp [hx]), if_pos (by simp [hx])]
  · intro s hs
    have hne : (s == "") = false := by
      rw [beq_eq_false_iff_ne]
      intro hcon
      rw [hlow s hcon] at hs
      simp at hs
    unfold normalizeTransactionStatus
    try dsimp only
    rw [if_neg (by simp [hne])]
    try dsimp only
    simp only [List.mem_cons, List.mem_singleton, List.not_mem_nil, or_false] at hs
    rcases hs with hx | hx <;>
      rw [if_neg (by simp [hx]), if_neg (by simp [hx]), if_pos (by simp [hx])]
  · intro s hs0 hs
    have hne : (s == "") = false := by
      rw [beq_eq_false_iff_ne]
      exact hs0
    simp only [List.mem_cons, List.mem_singleton, List.not_mem_nil, or_false, not_or] at hs
    obtain ⟨n1, n2, n3, n4, n5, n6, n7, n8, n9⟩ := hs
    unfold normalizeTransactionStatus
    try dsimp only
    rw [if_neg (by simp [hne])]
    try dsimp only
    rw [if_neg (by simp [n1, n2, n3]), if_neg (by simp [n4, n5, n6, n7]),
      if_neg (by simp [n8, n9])]

theorem c4_normalize_status_witness :
    normalizeTransactionStatus (some "Completed") = "SUCCESS"
    ∧ normalizeTransactionStatus (some "BLOCKED") = "FAILED"
    ∧ normalizeTransactionStatus (some "unclaimed") = "PENDING"
    ∧ normalizeTransactionStatus (some "weird_status") = "WEIRD_STATUS"
    ∧ normalizeTransactionStatus none = "UNKNOWN" :=
  ⟨c4_normalize_status.1 "Completed" (by decide),
   c4_normalize_status.2.1 "BLOCKED" (by decide),
   c4_normalize_status.2.2.1 "unclaimed" (by decide),
   (c4_normalize_status.2.2.2.1 "weird_status" (by decide) (by decide)).trans (by decide),
   c4_normalize_status.2.2.2.2⟩

/-! ## Claims C7, C8, C9, C10 -/

/-- A processing error caught by the per-withdrawal handler leaves the state
untouched. -/
theorem tickStep_of_error {client : PayPalClient} {st : LedgerState}
    {w : Withdrawal} {e : String}
    (h : processOneWithdrawal client st w = .error e) :
    tickStep client st w = st := by
  unfold tickStep
  by_cases hb : strTruthy w.paypalBatchId = true
  · rw [if_pos hb, h]
  · rw [if_neg hb]

/-- C7: during one reconciliation tick, an error raised while processing one
withdrawal of the scanned snapshot leaves the state as it was before that
withdrawal and does not prevent the whole remainder of the snapshot from
being processed. -/
theorem c7_per_item_errors_contained (client : PayPalClient) (st : LedgerState)
    (l1 l2 : List Withdrawal) (w : Withdrawal) (e : String)
    (hsnap : st.withdrawals.filter (fun x => x.status == WStatus.PROCESSING)
      = l1 ++ w :: l2)
    (herr : processOneWithdrawal client (l1.foldl (tickStep client) st) w = .error e) :
    tickStep client (l1.foldl (tickStep client) st) w = l1.foldl (tickStep client) st
    ∧ updateWithdrawalStatuses client st
        = l2.foldl (tickStep client) (l1.foldl (tickStep client) st) := by
  have hstep : tickStep client (l1.foldl (tickStep client) st) w
      = l1.foldl (tickStep client) st := tickStep_of_error herr
  refine ⟨hstep, ?_⟩
  unfold updateWithdrawalStatuses
  rw [hsnap, List.foldl_append, List.foldl_cons, hstep]

/-- A client whose batch endpoint is unreachable. -/
def c7ExampleClient : PayPalClient :=
  { batchResult := fun _ => .error { statusCode := none, message := some "down" }
    itemResult := fun _ => .error { statusCode := none, message := some "down" } }

/-- A single `PROCESSING` withdrawal with a recorded batch id. -/
def c7ExampleWithdrawal : Withdrawal :=
  { id := "w0", creatorId := "c", amount := 20, status := .PROCESSING,
    paypalEmail := "e@x", paypalBatchId := some "B1", paypalPayoutItemId := some "I1",
    failureReason := none }

theorem c7_per_item_errors_contained_witness :
    tickStep c7ExampleClient
        (([] : List Withdrawal).foldl (tickStep c7ExampleClient)
          { wallets := [], withdrawals := [c7ExampleWithdrawal] })
        c7ExampleWithdrawal
      = ([] : List Withdrawal).foldl (tickStep c7ExampleClient)
          { wallets := [], withdrawals := [c7ExampleWithdrawal] }
    ∧ updateWithdrawalStatuses c7ExampleClient
        { wallets := [], withdrawals := [c7ExampleWithdrawal] }
      = ([] : List Withdrawal).foldl (tickStep c7ExampleClient)
          (([] : List Withdrawal).foldl (tickStep c7ExampleClient)
            { wallets := [], withdrawals := [c7ExampleWithdrawal] }) :=
  c7_per_item_errors_contained c7ExampleClient
    { wallets := [], withdrawals := [c7ExampleWithdrawal] }
    [] [] c7ExampleWithdrawal "Failed to get payout status: down"
    (by decide) rfl

/-- C8: `forceCheckWithdrawal` fails with `Withdrawal not found` when the id
is unknown; returns an informational message with no writes when the
withdrawal is not `PROCESSING`; and fails with `No PayPal batch ID found`,
again with no writes, when it is `PROCESSING` without a recorded batch
id. -/
theorem c8_forceCheck_guards (client : PayPalClient) (st : LedgerState)
    (wid : String) :
    (findWithdrawal st wid = none →
      forceCheckWithdrawal client st wid = (st, .error "Withdrawal not found"))
    ∧ (∀ w, findWithdrawal st wid = some w → w.status ≠ .PROCESSING →
      forceCheckWithdrawal client st wid = (st, .ok .notProcessing))
    ∧ (∀ w, findWithdrawal st wid = some w → w.status = .PROCESSING →
        strTruthy w.paypalBatchId = false →
      forceCheckWithdrawal client st wid = (st, .error "No PayPal batch ID found")) := by
  refine ⟨?_, ?_, ?_⟩
  · intro h
    unfold forceCheckWithdrawal
    rw [h]
  · intro w hw hstat
    unfold forceCheckWithdrawal
    rw [hw]
    dsimp only
    rw [if_pos hstat]
  · intro w hw hstat hb
    unfold forceCheckWithdrawal
    rw [hw]
    dsimp only
    rw [if_neg (not_ne_iff.mpr hstat), if_pos (by simp [hb])]

/-- A `COMPLETED` withdrawal and a `PROCESSING` withdrawal without a batch
id, for exercising the three `forceCheck` guards. -/
def c8ExampleState : LedgerState :=
  { wallets := []
    withdrawals :=
      [{ id := "w1", creatorId := "c", amount := 20, status := .COMPLETED,
         paypalEmail := "e@x", paypalBatchId := some "B1", paypalPayoutItemId := some "I1",
         failureReason := none },
       { id := "w2", creatorId := "c", amount := 30, status := .PROCESSING,
         paypalEmail := "e@x", paypalBatchId := none, paypalPayoutItemId := none,
         failureReason := none }] }

theorem c8_forceCheck_guards_witness :
    forceCheckWithdrawal c7ExampleClient c8ExampleState "nope"
      = (c8ExampleState, .error "Withdrawal not found")
    ∧ forceCheckWithdrawal c7ExampleClient c8ExampleState "w1"
      = (c8ExampleState, .ok .notProcessing)
    ∧ forceCheckWithdrawal c7ExampleClient c8ExampleState "w2"
      = (c8ExampleState, .error "No PayPal batch ID found") :=
  ⟨(c8_forceCheck_guards c7ExampleClient c8ExampleState "nope").1 (by decide),
   (c8_forceCheck_guards c7ExampleClient c8ExampleState "w1").2.1
     { id := "w1", creatorId := "c", amount := 20, status := .COMPLETED,
       paypalEmail := "e@x", paypalBatchId := some "B1", paypalPayoutItemId := some "I1",
       failureReason := none } (by decide) (by decide),
   (c8_forceCheck_guards c7ExampleClient c8ExampleState "w2").2.2
     { id := "w2", creatorId := "c", amount := 30, status := .PROCESSING,
       paypalEmail := "e@x", paypalBatchId := none, paypalPayoutItemId := none,
       failureReason := none } (by decide) (by decide) (by decide)⟩

/-- C9: for a `PROCESSING` withdrawal with a recorded batch id,
`forceCheckWithdrawal` applies the first item of the fetched batch —
`items[0]` — whatever its `payout_item_id` is: no item-id matching is
performed. -/
theorem c9_forceCheck_first_item (client : PayPalClient) (st : LedgerState)
    (wid : String) (w : Withdrawal) (resp : RawBatchResponse) (rit : RawBatchItem)
    (rest : List RawBatchItem)
    (hw : findWithdrawal st wid = some w)
    (hproc : w.status = .PROCESSING)
    (hb : strTruthy w.paypalBatchId = true)
    (hresp : client.batchResult ((w.paypalBatchId).getD "") = .ok resp)
    (hitems : resp.items = rit :: rest) :
    forceCheckWithdrawal client st wid
      = ((updateWithdrawalFromItem st w (normalizeItem rit)).2,
         .ok (.checked (updateWithdrawalFromItem st w (normalizeItem rit)).1)) := by
  unfold forceCheckWithdrawal
  rw [hw]
  dsimp only
  rw [if_neg (not_ne_iff.mpr hproc), if_neg (by simp [hb])]
  unfold getPayoutStatus
  rw [hresp]
  dsimp only
  rw [hitems]
  dsimp only [List.map_cons, List.head?]

/-- The state holding just `c7ExampleWithdrawal`, whose stored item id is
`I1`, while the client's batch response carries an item with the different
id `I9`. -/
def c9ExampleClient : PayPalClient :=
  { batchResult := fun _ => .ok
      { batch_header := some { payout_batch_id := some "B1", batch_status := some "SUCCESS" }
        items := [{ payout_item_id := "I9", transaction_status := some "SUCCESS", errorsMessage := none }] }
    itemResult := fun _ => .error { statusCode := none, message := none } }

theorem c9_forceCheck_first_item_witness :
    forceCheckWithdrawal c9ExampleClient
        { wallets := [], withdrawals := [c7ExampleWithdrawal] } "w0"
      = ((updateWithdrawalFromItem { wallets := [], withdrawals := [c7ExampleWithdrawal] }
            c7ExampleWithdrawal
            (normalizeItem { payout_item_id := "I9", transaction_status := some "SUCCESS", errorsMessage := none })).2,
         .ok (.checked (updateWithdrawalFromItem
            { wallets := [], withdrawals := [c7ExampleWithdrawal] }
            c7ExampleWithdrawal
            (normalizeItem { payout_item_id := "I9", transaction_status := some "SUCCESS", errorsMessage := none })).1)) :=
  c9_forceCheck_first_item c9ExampleClient
    { wallets := [], withdrawals := [c7ExampleWithdrawal] } "w0" c7ExampleWithdrawal
    { batch_header := some { payout_batch_id := some "B1", batch_status := some "SUCCESS" }
      items := [{ payout_item_id := "I9", transaction_status := some "SUCCESS", errorsMessage := none }] }
    { payout_item_id := "I9", transaction_status := some "SUCCESS", errorsMessage := none }
    [] (by decide) (by decide) (by decide) rfl rfl

/-- C10: when a withdrawal is moved to `FAILED` by
`updateWithdrawalFromItem` and no wallet row exists for its creator, the
credit-back is silently skipped — the wallet table is untouched, the
withdrawal is still saved as `FAILED`, and no error is raised (the function
is total). -/
theorem c10_refund_skipped_without_wallet (st : LedgerState) (w : Withdrawal)
    (item : NormItem)
    (hnw : findWallet st w.creatorId = none)
    (hfail : (strToLower item.transaction_status == "failed"
      || strToLower item.transaction_status == "returned"
      || strToLower item.transaction_status == "refunded"
      || strToLower item.transaction_status == "blocked") = true) :
    (updateWithdrawalFromItem st w item).1.status = .FAILED
    ∧ (updateWithdrawalFromItem st w item).2.wallets = st.wallets
    ∧ findWithdrawal (updateWithdrawalFromItem st w item).2 w.id
        = some (updateWithdrawalFromItem st w item).1 := by
  have hnotsucc : (strToLower item.transaction_status == "success"
      || strToLower item.transaction_status == "completed"
      || strToLower item.transaction_status == "claimed") = false := by
    simp only [Bool.or_eq_true, beq_iff_eq] at hfail
    rcases hfail with ((hx | hx) | hx) | hx <;> rw [hx] <;> decide
  unfold updateWithdrawalFromItem
  rw [if_neg (by simp [hnotsucc]), if_pos hfail]
  dsimp only
  rw [refundToWallet_missing { w with status := WStatus.FAILED, failureReason := some (jsOr item.errorsMessage ("PayPal transaction " ++ strToLower item.transaction_status)) } hnw]
  refine ⟨rfl, saveWithdrawal_wallets st _, ?_⟩
  rw [findWithdrawal_saveWithdrawal]
  dsimp only
  rw [if_pos rfl]

theorem c10_refund_skipped_without_wallet_witness :
    (updateWithdrawalFromItem { wallets := [], withdrawals := [c7ExampleWithdrawal] }
      c7ExampleWithdrawal
      { payout_item_id := "I1", transaction_status := "FAILED", errorsMessage := none }).1.status
      = .FAILED
    ∧ (updateWithdrawalFromItem { wallets := [], withdrawals := [c7ExampleWithdrawal] }
      c7ExampleWithdrawal
      { payout_item_id := "I1", transaction_status := "FAILED", errorsMessage := none }).2.wallets
      = ({ wallets := [], withdrawals := [c7ExampleWithdrawal] } : LedgerState).wallets
    ∧ findWithdrawal (updateWithdrawalFromItem
        { wallets := [], withdrawals := [c7ExampleWithdrawal] } c7ExampleWithdrawal
        { payout_item_id := "I1", transaction_status := "FAILED", errorsMessage := none }).2
        c7ExampleWithdrawal.id
      = some (updateWithdrawalFromItem
        { wallets := [], withdrawals := [c7ExampleWithdrawal] } c7ExampleWithdrawal
        { payout_item_id := "I1", transaction_status := "FAILED", errorsMessage := none }).1 :=
  c10_refund_skipped_without_wallet
    { wallets := [], withdrawals := [c7ExampleWithdrawal] } c7ExampleWithdrawal
    { payout_item_id := "I1", transaction_status := "FAILED", errorsMessage := none }
    (by decide) (by decide)

/-! ## Claim C5 -/

theorem toNat_ofNat_valid (n : Nat) (h : n < 55296) : (Char.ofNat n).toNat = n := by
  have hv : n.isValidChar := Or.inl h
  simp [Char.ofNat, hv, Char.toNat, Char.ofNatAux, UInt32.toNat, UInt32.ofNatCore]

theorem asciiLower_asciiUpper (c : Char) :
    asciiLowerChar (asciiUpperChar c) = asciiLowerChar c := by
  unfold asciiUpperChar
  by_cases h : 97 ≤ c.toNat ∧ c.toNat ≤ 122
  · rw [if_pos h]
    have hval : (Char.ofNat (c.toNat - 32)).toNat = c.toNat - 32 :=
      toNat_ofNat_valid (c.toNat - 32) (by omega)
    unfold asciiLowerChar
    rw [hval]
    rw [if_pos (by omega), if_neg (by omega)]
    have harith : c.toNat - 32 + 32 = c.toNat := by omega
    rw [harith]
    exact Char.ofNat_toNat c
  · rw [if_neg h]

theorem strToLower_strToUpper (s : String) :
    strToLower (strToUpper s) = strToLower s := by
  unfold strToLower strToUpper
  simp only [List.map_map]
  exact congrArg String.mk (List.map_congr_left (fun c _ => asciiLower_asciiUpper c))

/-- If the matched item triggers neither the success nor the failure branch,
`updateWithdrawalFromItem` changes nothing. -/
theorem updateWithdrawalFromItem_no_change (st : LedgerState) (w : Withdrawal)
    (item : NormItem)
    (h1 : (strToLower item.transaction_status == "success"
      || strToLower item.transaction_status == "completed"
      || strToLower item.transaction_status == "claimed") = false)
    (h2 : (strToLower item.transaction_status == "failed"
      || strToLower item.transaction_status == "returned"
      || strToLower item.transaction_status == "refunded"
      || strToLower item.transaction_status == "blocked") = false) :
    updateWithdrawalFromItem st w item = (w, st) := by
  unfold updateWithdrawalFromItem
  rw [if_neg (by simp [h1]), if_neg (by simp [h2])]

/-- A normalized status other than `SUCCESS`/`FAILED` triggers neither
branch of `updateWithdrawalFromItem` after its own lower-casing. -/
theorem normalize_not_triggering (r : Option String)
    (hp : normalizeTransactionStatus r ∉ (["SUCCESS", "FAILED"] : List String)) :
    (strToLower (normalizeTransactionStatus r) == "success"
      || strToLower (normalizeTransactionStatus r) == "completed"
      || strToLower (normalizeTransactionStatus r) == "claimed") = false
    ∧ (strToLower (normalizeTransactionStatus r) == "failed"
      || strToLower (normalizeTransactionStatus r) == "returned"
      || strToLower (normalizeTransactionStatus r) == "refunded"
      || strToLower (normalizeTransactionStatus r) == "blocked") = false := by
  simp only [List.mem_cons, List.mem_singleton, List.not_mem_nil, or_false, not_or] at hp
  cases r with
  | none => exact ⟨by decide, by decide⟩
  | some s =>
    unfold normalizeTransactionStatus at hp ⊢
    try dsimp only at hp ⊢
    by_cases he : (s == "") = true
    · rw [if_pos he] at hp ⊢
      exact ⟨by decide, by decide⟩
    rw [if_neg he] at hp ⊢
    try dsimp only at hp ⊢
    by_cases c1 : (strToLower s == "success" || strToLower s == "completed"
        || strToLower s == "claimed") = true
    · rw [if_pos c1] at hp
      exact absurd rfl hp.1
    rw [if_neg c1] at hp ⊢
    by_cases c2 : (strToLower s == "failed" || strToLower s == "returned"
        || strToLower s == "refunded" || strToLower s == "blocked") = true
    · rw [if_pos c2] at hp
      exact absurd rfl hp.2
    rw [if_neg c2] at hp ⊢
    by_cases c3 : (strToLower s == "pending" || strToLower s == "unclaimed") = true
    · rw [if_pos c3]
      exact ⟨by decide, by decide⟩
    rw [if_neg c3]
    rw [strToLower_strToUpper]
    simp only [Bool.not_eq_true] at c1 c2
    exact ⟨c1, c2⟩

/-- C5: for a `PROCESSING` withdrawal handled by the reconciliation scan,
the batch item selected is the one whose id equals the stored payout item id
— or, when no item id is stored and the batch has exactly one item, that
single item — and its normalized status is applied: `SUCCESS` marks the row
`COMPLETED` leaving wallets untouched, a `FAILED`-family status marks it
`FAILED` and credits the creator's wallet back with the amount, and
`PENDING` or an unrecognized status changes nothing. -/
theorem c5_reconcile_matched_item (st : LedgerState) (w : Withdrawal)
    (raw : List RawBatchItem) (_hproc : w.status = .PROCESSING) :
    (strTruthy w.paypalPayoutItemId = true →
      matchItem w (raw.map normalizeItem)
        = (raw.map normalizeItem).find?
            (fun item => item.payout_item_id == (w.paypalPayoutItemId).getD ""))
    ∧ (strTruthy w.paypalPayoutItemId = false → (raw.map normalizeItem).length = 1 →
      matchItem w (raw.map normalizeItem) = (raw.map normalizeItem).head?)
    ∧ (∀ rit : RawBatchItem,
        matchItem w (raw.map normalizeItem) = some (normalizeItem rit) →
      (normalizeTransactionStatus rit.transaction_status = "SUCCESS" →
        (updateWithdrawalFromItem st w (normalizeItem rit)).1.status = .COMPLETED
        ∧ findWithdrawal (updateWithdrawalFromItem st w (normalizeItem rit)).2 w.id
            = some (updateWithdrawalFromItem st w (normalizeItem rit)).1
        ∧ (updateWithdrawalFromItem st w (normalizeItem rit)).2.wallets = st.wallets)
      ∧ (normalizeTransactionStatus rit.transaction_status = "FAILED" →
        (updateWithdrawalFromItem st w (normalizeItem rit)).1.status = .FAILED
        ∧ findWithdrawal (updateWithdrawalFromItem st w (normalizeItem rit)).2 w.id
            = some (updateWithdrawalFromItem st w (normalizeItem rit)).1
        ∧ ∀ wal, findWallet st w.creatorId = some wal →
            findWallet (updateWithdrawalFromItem st w (normalizeItem rit)).2 w.creatorId
              = some { wal with balance := wal.balance + w.amount })
      ∧ (normalizeTransactionStatus rit.transaction_status
            ∉ (["SUCCESS", "FAILED"] : List String) →
        updateWithdrawalFromItem st w (normalizeItem rit) = (w, st))) := by
  refine ⟨?_, ?_, ?_⟩
  · intro htr
    unfold matchItem
    congr 1
    funext item
    rw [if_pos htr]
  · intro htr hlen
    rcases List.length_eq_one.mp hlen with ⟨x, hx⟩
    unfold matchItem
    rw [hx]
    rw [List.find?_cons_of_pos _ (by rw [htr]; simp [← hx, hlen])]
    rfl
  · intro rit hmatch
    have hts : (normalizeItem rit).transaction_status
        = normalizeTransactionStatus rit.transaction_status := rfl
    refine ⟨?_, ?_, ?_⟩
    · intro hsucc
      unfold updateWithdrawalFromItem
      rw [hts, hsucc]
      rw [if_pos (by decide)]
      exact ⟨rfl, by rw [findWithdrawal_saveWithdrawal]; dsimp only; rw [if_pos rfl],
        saveWithdrawal_wallets st _⟩
    · intro hfail
      unfold updateWithdrawalFromItem
      rw [hts, hfail]
      rw [if_neg (by decide), if_pos (by decide)]
      refine ⟨rfl, by rw [findWithdrawal_saveWithdrawal]; dsimp only; rw [if_pos rfl], ?_⟩
      intro wal hwal
      rw [findWallet_of_wallets_eq (saveWithdrawal_wallets _ _) w.creatorId]
      rw [refundToWallet_found { w with status := WStatus.FAILED, failureReason := some (jsOr (normalizeItem rit).errorsMessage ("PayPal transaction " ++ strToLower "FAILED")) } hwal, findWallet_saveWallet]
      dsimp only
      rw [if_pos (findWallet_mem hwal).2.symm]
    · intro hunrec
      have hnt := normalize_not_triggering rit.transaction_status hunrec
      exact updateWithdrawalFromItem_no_change st w (normalizeItem rit)
        (by rw [hts]; exact hnt.1) (by rw [hts]; exact hnt.2)

/-- A ledger with one wallet (balance 80 after a 20-unit debit) and the
`PROCESSING` withdrawal `c7ExampleWithdrawal`. -/
def c5ExampleState : LedgerState :=
  { wallets := [{ creatorId := "c", balance := 80, paypalEmail := some "e@x", paypalVerified := true }]
    withdrawals := [c7ExampleWithdrawal] }

/-- A batch item whose id does not match the stored one. -/
def c5ItemA : RawBatchItem :=
  { payout_item_id := "I0", transaction_status := some "Pending", errorsMessage := none }

/-- The batch item matching the stored id `I1`, in a failure status. -/
def c5ItemB : RawBatchItem :=
  { payout_item_id := "I1", transaction_status := some "Returned", errorsMessage := none }

theorem c5_reconcile_matched_item_witness :
    matchItem c7ExampleWithdrawal ([c5ItemA, c5ItemB].map normalizeItem)
      = ([c5ItemA, c5ItemB].map normalizeItem).find?
          (fun item => item.payout_item_id == (c7ExampleWithdrawal.paypalPayoutItemId).getD "")
    ∧ (updateWithdrawalFromItem c5ExampleState c7ExampleWithdrawal
        (normalizeItem c5ItemB)).1.status = .FAILED
    ∧ findWithdrawal (updateWithdrawalFromItem c5ExampleState c7ExampleWithdrawal
        (normalizeItem c5ItemB)).2 c7ExampleWithdrawal.id
      = some (updateWithdrawalFromItem c5ExampleState c7ExampleWithdrawal
        (normalizeItem c5ItemB)).1
    ∧ findWallet (updateWithdrawalFromItem c5ExampleState c7ExampleWithdrawal
        (normalizeItem c5ItemB)).2 c7ExampleWithdrawal.creatorId
      = some { creatorId := "c", balance := 80 + 20, paypalEmail := some "e@x", paypalVerified := true } :=
  ⟨(c5_reconcile_matched_item c5ExampleState c7ExampleWithdrawal [c5ItemA, c5ItemB]
      (by decide)).1 (by decide),
   (((c5_reconcile_matched_item c5ExampleState c7ExampleWithdrawal [c5ItemA, c5ItemB]
      (by decide)).2.2 c5ItemB (by decide)).2.1 (by decide)).1,
   (((c5_reconcile_matched_item c5ExampleState c7ExampleWithdrawal [c5ItemA, c5ItemB]
      (by decide)).2.2 c5ItemB (by decide)).2.1 (by decide)).2.1,
   (((c5_reconcile_matched_item c5ExampleState c7ExampleWithdrawal [c5ItemA, c5ItemB]
      (by decide)).2.2 c5ItemB (by decide)).2.1 (by decide)).2.2
     { creatorId := "c", balance := 80, paypalEmail := some "e@x", paypalVerified := true }
     (by decide)⟩

/-! ## Claim C6: rows written by each operation -/

theorem tickStep_ids_nodup {client : PayPalClient} {st : LedgerState} (w : Withdrawal)
    (h : withdrawalIdsNodup st) : withdrawalIdsNodup (tickStep client st w) := by
  rcases tickStep_shape client st w with he | he | ⟨r, he⟩ <;> rw [he]
  · exact h
  · exact saveWithdrawal_ids_nodup _ h
  · apply saveWithdrawal_ids_nodup
    unfold withdrawalIdsNodup
    rw [refundToWallet_withdrawals]
    exact h

theorem eq_of_mem_same_id {st : LedgerState} {x w : Withdrawal}
    (hnd : withdrawalIdsNodup st) (hx : x ∈ st.withdrawals) (hw : w ∈ st.withdrawals)
    (hid : x.id = w.id) : x = w := by
  have h1 := findWithdrawal_of_mem hnd hx
  have h2 := findWithdrawal_of_mem hnd hw
  rw [hid] at h1
  rw [h1] at h2
  exact Option.some.inj h2

theorem tickStep_find_of_ne (client : PayPalClient) (st : LedgerState)
    (w : Withdrawal) (i : String) (hne : i ≠ w.id) :
    findWithdrawal (tickStep client st w) i = findWithdrawal st i := by
  rcases tickStep_shape client st w with he | he | ⟨r, he⟩
  · rw [he]
  · rw [he, findWithdrawal_saveWithdrawal]
    dsimp only
    rw [if_neg hne]
  · rw [he, findWithdrawal_saveWithdrawal]
    dsimp only
    rw [if_neg hne, findWithdrawal_of_withdrawals_eq (refundToWallet_withdrawals _ _)]

theorem tickStep_find_self (client : PayPalClient) (st : LedgerState) (w : Withdrawal) :
    findWithdrawal (tickStep client st w) w.id = findWithdrawal st w.id
    ∨ ∃ w2, findWithdrawal (tickStep client st w) w.id = some w2
        ∧ (w2.status = .COMPLETED ∨ w2.status = .FAILED) := by
  rcases tickStep_shape client st w with he | he | ⟨r, he⟩ <;> rw [he]
  · left; rfl
  · right
    refine ⟨{ w with status := .COMPLETED }, ?_, Or.inl rfl⟩
    rw [findWithdrawal_saveWithdrawal]
    dsimp only
    rw [if_pos rfl]
  · right
    refine ⟨{ w with status := .FAILED, failureReason := some r }, ?_, Or.inr rfl⟩
    rw [findWithdrawal_saveWithdrawal]
    dsimp only
    rw [if_pos rfl]

theorem foldl_tickStep_rows (client : PayPalClient) :
    ∀ (l : List Withdrawal) (st : LedgerState),
      withdrawalIdsNodup st →
      (∀ w ∈ l, w ∈ st.withdrawals ∧ w.status = .PROCESSING) →
      (l.map (fun w => w.id)).Nodup →
      ∀ x ∈ st.withdrawals, ∃ x2,
        findWithdrawal (l.foldl (tickStep client) st) x.id = some x2
        ∧ (x2 = x ∨ (x.status = .PROCESSING ∧ (x2.status = .COMPLETED ∨ x2.status = .FAILED)))
  | [], st, hnd, _, _, x, hx => ⟨x, findWithdrawal_of_mem hnd hx, Or.inl rfl⟩
  | w :: t, st, hnd, hl, hndl, x, hx => by
    rw [List.foldl_cons]
    have hw := hl w (List.mem_cons_self w t)
    simp only [List.map_cons, List.nodup_cons] at hndl
    have hnd2 : withdrawalIdsNodup (tickStep client st w) := tickStep_ids_nodup w hnd
    have hl2 : ∀ y ∈ t, y ∈ (tickStep client st w).withdrawals ∧ y.status = .PROCESSING := by
      intro y hy
      have hyl := hl y (List.mem_cons_of_mem w hy)
      refine ⟨tickStep_mem_ne hyl.1 ?_, hyl.2⟩
      rw [beq_eq_false_iff_ne]
      intro hcon
      exact hndl.1 (hcon ▸ List.mem_map.mpr ⟨y, hy, rfl⟩)
    by_cases hid : x.id = w.id
    · have hxw : x = w := eq_of_mem_same_id hnd hx hw.1 hid
      subst hxw
      rcases tickStep_find_self client st x with hcase | ⟨w2, hfind, hterm⟩
      · have hxmem : x ∈ (tickStep client st x).withdrawals := by
          have hfs := findWithdrawal_of_mem hnd hx
          rw [← hfs, ← hcase] at hfs
          exact (findWithdrawal_mem (hcase.trans (findWithdrawal_of_mem hnd hx))).1
        exact foldl_tickStep_rows client t (tickStep client st x) hnd2 hl2 hndl.2 x hxmem
      · have hw2mem : w2 ∈ (tickStep client st x).withdrawals := (findWithdrawal_mem hfind).1
        have hw2id : w2.id = x.id := (findWithdrawal_mem hfind).2
        obtain ⟨x2, hf2, hd2⟩ :=
          foldl_tickStep_rows client t (tickStep client st x) hnd2 hl2 hndl.2 w2 hw2mem
        have hx2 : x2 = w2 := by
          rcases hd2 with h | ⟨hp, _⟩
          · exact h
          · rcases hterm with ht | ht <;> rw [ht] at hp <;> cases hp
        rw [hw2id] at hf2
        subst hx2
        exact ⟨x2, hf2, Or.inr ⟨hw.2, hterm⟩⟩
    · have hxmem2 : x ∈ (tickStep client st w).withdrawals :=
        tickStep_mem_ne hx (by rw [beq_eq_false_iff_ne]; exact hid)
      exact foldl_tickStep_rows client t (tickStep client st w) hnd2 hl2 hndl.2 x hxmem2

theorem tick_rows {client : PayPalClient} {st : LedgerState}
    (hnd : withdrawalIdsNodup st) :
    ∀ x ∈ st.withdrawals, ∃ x2,
      findWithdrawal (updateWithdrawalStatuses client st) x.id = some x2
      ∧ (x2 = x ∨ (x.status = .PROCESSING ∧ (x2.status = .COMPLETED ∨ x2.status = .FAILED))) := by
  unfold updateWithdrawalStatuses
  apply foldl_tickStep_rows client _ st hnd
  · intro w hw
    have hm := List.mem_filter.mp hw
    exact ⟨hm.1, by simpa using hm.2⟩
  · exact List.Nodup.sublist (List.Sublist.map _ (List.filter_sublist _)) hnd

/-- `forceCheckWithdrawal` on a withdrawal that is not `PROCESSING` is a pure
no-op answering with an informational message. -/
theorem forceCheck_not_processing (client : PayPalClient) (st : LedgerState)
    (wid : String) (w : Withdrawal)
    (hw : findWithdrawal st wid = some w) (hstat : w.status ≠ .PROCESSING) :
    forceCheckWithdrawal client st wid = (st, .ok .notProcessing) := by
  unfold forceCheckWithdrawal
  rw [hw]
  dsimp only
  rw [if_pos hstat]

theorem forceCheck_rows {client : PayPalClient} {st : LedgerState} {wid : String}
    (hnd : withdrawalIdsNodup st) :
    ∀ x ∈ st.withdrawals, ∃ x2,
      findWithdrawal (forceCheckWithdrawal client st wid).1 x.id = some x2
      ∧ (x2 = x ∨ (x.status = .PROCESSING ∧ (x2.status = .COMPLETED ∨ x2.status = .FAILED))) := by
  intro x hx
  unfold forceCheckWithdrawal
  cases hf : findWithdrawal st wid with
  | none => exact ⟨x, findWithdrawal_of_mem hnd hx, Or.inl rfl⟩
  | some w =>
    dsimp only
    by_cases hstat : w.status ≠ WStatus.PROCESSING
    · rw [if_pos hstat]
      exact ⟨x, findWithdrawal_of_mem hnd hx, Or.inl rfl⟩
    rw [if_neg hstat]
    by_cases hbb : (!strTruthy w.paypalBatchId) = true
    · rw [if_pos hbb]
      exact ⟨x, findWithdrawal_of_mem hnd hx, Or.inl rfl⟩
    rw [if_neg hbb]
    cases hg : getPayoutStatus ((w.paypalBatchId).getD "")
        (client.batchResult ((w.paypalBatchId).getD "")) with
    | error e =>
      dsimp only
      exact ⟨x, findWithdrawal_of_mem hnd hx, Or.inl rfl⟩
    | ok ps =>
      dsimp only
      cases hh : ps.items.head? with
      | none =>
        dsimp only
        exact ⟨x, findWithdrawal_of_mem hnd hx, Or.inl rfl⟩
      | some item =>
        dsimp only
        have hproc : w.status = .PROCESSING := not_ne_iff.mp hstat
        have hwmem : w ∈ st.withdrawals := (findWithdrawal_mem hf).1
        rcases updateWithdrawalFromItem_shape st w item with hu | hu | ⟨r, hu⟩ <;> rw [hu]
        · exact ⟨x, findWithdrawal_of_mem hnd hx, Or.inl rfl⟩
        · by_cases hid : x.id = w.id
          · have hxw : x = w := eq_of_mem_same_id hnd hx hwmem hid
            subst hxw
            refine ⟨{ x with status := .COMPLETED }, ?_, Or.inr ⟨hproc, Or.inl rfl⟩⟩
            rw [findWithdrawal_saveWithdrawal]
            dsimp only
            rw [if_pos rfl]
          · refine ⟨x, ?_, Or.inl rfl⟩
            rw [findWithdrawal_saveWithdrawal]
            dsimp only
            rw [if_neg hid]
            exact findWithdrawal_of_mem hnd hx
        · by_cases hid : x.id = w.id
          · have hxw : x = w := eq_of_mem_same_id hnd hx hwmem hid
            subst hxw
            refine ⟨{ x with status := .FAILED, failureReason := some r }, ?_,
              Or.inr ⟨hproc, Or.inr rfl⟩⟩
            rw [findWithdrawal_saveWithdrawal]
            dsimp only
            rw [if_pos rfl]
          · refine ⟨x, ?_, Or.inl rfl⟩
            rw [findWithdrawal_saveWithdrawal]
            dsimp only
            rw [if_neg hid, findWithdrawal_of_withdrawals_eq (refundToWallet_withdrawals _ _)]
            exact findWithdrawal_of_mem hnd hx

theorem createWallet_withdrawals (st : LedgerState) (cid : String) :
    (createWallet st cid).1.withdrawals = st.withdrawals := by
  unfold createWallet
  cases findWallet st cid with
  | none =>
    dsimp only
    rw [saveWallet_withdrawals]
  | some w => rfl

theorem linkPayPal_withdrawals (st : LedgerState) (cid email : String) :
    (linkPayPal st cid email).1.withdrawals = st.withdrawals := by
  unfold linkPayPal
  cases findWallet st cid with
  | none => rfl
  | some w =>
    dsimp only
    rw [saveWallet_withdrawals]

theorem deposit_withdrawals (st : LedgerState) (cid : String) (a : Int) :
    (deposit st cid a).withdrawals = st.withdrawals := by
  unfold deposit
  cases findWallet st cid with
  | none => rfl
  | some w =>
    dsimp only
    rw [saveWallet_withdrawals]

theorem requestWithdrawal_rows {st : LedgerState} (cid : String) (amount : Int)
    (newId : String) (cr : Except ClientError (Option RawSendResponse))
    (hnd : withdrawalIdsNodup st)
    (hfresh : ∀ y ∈ st.withdrawals, (y.id == newId) = false) :
    ∀ x ∈ st.withdrawals,
      findWithdrawal (requestWithdrawal st cid amount newId cr).1 x.id = some x := by
  intro x hx
  have hxid : x.id ≠ newId := by
    have hb := hfresh x hx
    rw [beq_eq_false_iff_ne] at hb
    exact hb
  unfold requestWithdrawal
  by_cases h1 : amount ≤ 0
  · rw [if_pos h1]; exact findWithdrawal_of_mem hnd hx
  rw [if_neg h1]
  by_cases h2 : amount < 5
  · rw [if_pos h2]; exact findWithdrawal_of_mem hnd hx
  rw [if_neg h2]
  cases hf : findWallet st cid with
  | none => exact findWithdrawal_of_mem hnd hx
  | some wal =>
    dsimp only
    by_cases h3 : (!strTruthy wal.paypalEmail) = true
    · rw [if_pos h3]; exact findWithdrawal_of_mem hnd hx
    rw [if_neg h3]
    by_cases h4 : amount > wal.balance
    · rw [if_pos h4]; exact findWithdrawal_of_mem hnd hx
    rw [if_neg h4]
    cases hs : sendPayout cr with
    | ok pr =>
      dsimp only
      rw [findWithdrawal_saveWithdrawal]
      dsimp only
      rw [if_neg hxid, findWithdrawal_saveWithdrawal]
      dsimp only
      rw [if_neg hxid, findWithdrawal_of_withdrawals_eq (saveWallet_withdrawals _ _)]
      exact findWithdrawal_of_mem hnd hx
    | error e =>
      dsimp only
      rw [findWithdrawal_saveWithdrawal]
      dsimp only
      rw [if_neg hxid, findWithdrawal_of_withdrawals_eq (saveWallet_withdrawals _ _),
        findWithdrawal_saveWithdrawal]
      dsimp only
      rw [if_neg hxid, findWithdrawal_of_withdrawals_eq (saveWallet_withdrawals _ _)]
      exact findWithdrawal_of_mem hnd hx

/-- The fate of every pre-existing withdrawal row under any single
operation: it is found unchanged, or it went from `PROCESSING` to a terminal
status. -/
theorem applyOp_rows (st : LedgerState) (op : Op)
    (hnd : withdrawalIdsNodup st) (hfresh : opFresh st op = true) :
    ∀ x ∈ st.withdrawals, ∃ x2,
      findWithdrawal (applyOp st op) x.id = some x2
      ∧ (x2 = x ∨ (x.status = .PROCESSING ∧ (x2.status = .COMPLETED ∨ x2.status = .FAILED))) := by
  cases op with
  | createWallet cid =>
    intro x hx
    refine ⟨x, ?_, Or.inl rfl⟩
    simp only [applyOp]
    rw [findWithdrawal_of_withdrawals_eq (createWallet_withdrawals st cid)]
    exact findWithdrawal_of_mem hnd hx
  | linkPayPal cid email =>
    intro x hx
    refine ⟨x, ?_, Or.inl rfl⟩
    simp only [applyOp]
    rw [findWithdrawal_of_withdrawals_eq (linkPayPal_withdrawals st cid email)]
    exact findWithdrawal_of_mem hnd hx
  | deposit cid a =>
    intro x hx
    refine ⟨x, ?_, Or.inl rfl⟩
    simp only [applyOp]
    rw [findWithdrawal_of_withdrawals_eq (deposit_withdrawals st cid a)]
    exact findWithdrawal_of_mem hnd hx
  | requestWithdrawal cid amount newId cr =>
    intro x hx
    have hfr : ∀ y ∈ st.withdrawals, (y.id == newId) = false := by
      intro y hy
      unfold opFresh at hfresh
      have hb := List.all_eq_true.mp hfresh y hy
      simpa using hb
    exact ⟨x, requestWithdrawal_rows cid amount newId cr hnd hfr x hx, Or.inl rfl⟩
  | tick client =>
    simp only [applyOp]
    exact tick_rows hnd
  | forceCheck client wid =>
    simp only [applyOp]
    exact forceCheck_rows hnd

/-- C6: a withdrawal in a terminal status is never written again by any
operation; the reconciliation tick only transitions rows that were
`PROCESSING`; `forceCheck` on a non-`PROCESSING` withdrawal is a pure no-op
with an informational message; and the only status change any operation
applies to a pre-existing row is `PROCESSING` to `COMPLETED` or `FAILED`
(freshly created rows surface as `PROCESSING` or `FAILED` out of their
transient `PENDING`). -/
theorem c6_terminal_immutable (st : LedgerState) (op : Op)
    (hnd : withdrawalIdsNodup st) (hfresh : opFresh st op = true) :
    (∀ w ∈ st.withdrawals, (w.status = .COMPLETED ∨ w.status = .FAILED) →
      findWithdrawal (applyOp st op) w.id = some w)
    ∧ (∀ w ∈ st.withdrawals, ∀ w2, findWithdrawal (applyOp st op) w.id = some w2 →
      w2.status = w.status
      ∨ (w.status = .PROCESSING ∧ (w2.status = .COMPLETED ∨ w2.status = .FAILED)))
    ∧ (∀ client wid w, op = Op.forceCheck client wid →
        findWithdrawal st wid = some w → w.status ≠ .PROCESSING →
      applyOp st op = st
      ∧ (forceCheckWithdrawal client st wid).2 = .ok .notProcessing) := by
  refine ⟨?_, ?_, ?_⟩
  · intro w hw hterm
    obtain ⟨x2, hf, hd⟩ := applyOp_rows st op hnd hfresh w hw
    rcases hd with rfl | ⟨hp, _⟩
    · exact hf
    · rcases hterm with ht | ht <;> rw [ht] at hp <;> cases hp
  · intro w hw w2 hf2
    obtain ⟨x2, hf, hd⟩ := applyOp_rows st op hnd hfresh w hw
    rw [hf] at hf2
    have he := Option.some.inj hf2
    subst he
    rcases hd with rfl | ⟨hp, hterm⟩
    · left; rfl
    · right; exact ⟨hp, hterm⟩
  · intro client wid w hop hfw hstat
    subst hop
    have hno := forceCheck_not_processing client st wid w hfw hstat
    constructor
    · simp only [applyOp]
      rw [hno]
    · rw [hno]

def c6ExampleRow : Withdrawal :=
  { id := "w1", creatorId := "c", amount := 20, status := .COMPLETED,
    paypalEmail := "e@x", paypalBatchId := some "B1", paypalPayoutItemId := some "I1",
    failureReason := none }

theorem c6_terminal_immutable_witness :
    (withdrawalIdsNodup c8ExampleState
      ∧ opFresh c8ExampleState (Op.forceCheck c7ExampleClient "w1") = true)
    ∧ findWithdrawal (applyOp c8ExampleState (Op.forceCheck c7ExampleClient "w1")) "w1"
        = some c6ExampleRow
    ∧ applyOp c8ExampleState (Op.forceCheck c7ExampleClient "w1") = c8ExampleState
    ∧ (forceCheckWithdrawal c7ExampleClient c8ExampleState "w1").2 = .ok .notProcessing := by
  have hc6 := c6_terminal_immutable c8ExampleState (Op.forceCheck c7ExampleClient "w1")
    (by unfold withdrawalIdsNodup; decide) (by decide)
  refine ⟨⟨by unfold withdrawalIdsNodup; decide, by decide⟩, ?_, ?_, ?_⟩
  · exact hc6.1 c6ExampleRow (by decide) (Or.inl rfl)
  · exact (hc6.2.2 c7ExampleClient "w1" c6ExampleRow rfl (by decide) (by decide)).1
  · exact (hc6.2.2 c7ExampleClient "w1" c6ExampleRow rfl (by decide) (by decide)).2

end BlogWallet
